import Mathlib

/-!
Shallow embedding of the recipe persistence and query engine of the
digital-cookbook repository (Elysia + bun:sqlite server, `server/index.ts`).

Strings coming from HTTP requests are modelled as Lean `String`s; the
JavaScript `trim()` is modelled by `trimStr` and `toLowerCase()` /
SQLite `LOWER(...)` by a character-wise lowering (both agree on the ASCII
data the claims are about).  SQLite `LIKE ... ESCAPE '\'` is modelled by
`likeMatch` over character lists.
-/

namespace Cookbook

/-- Character-wise lowering, modelling both JS `toLowerCase()` (applied to
the search term) and SQLite `LOWER(...)` (applied to the columns). -/
def lowerStr (s : String) : String := String.mk (s.data.map Char.toLower)

/-- ASCII whitespace, as trimmed by JS `String.prototype.trim()`. -/
def isWs (c : Char) : Bool :=
  c = ' ' ∨ c = '\t' ∨ c = '\n' ∨ c = '\r' ∨ c = '\x0b' ∨ c = '\x0c'

/-- JS `String.prototype.trim()` (and the zod `.trim()` transform). -/
def trimStr (s : String) : String :=
  String.mk (((s.data.dropWhile isWs).reverse.dropWhile isWs).reverse)

/-- JS emptiness/falsiness test on a string. -/
def strEmpty (s : String) : Bool := s.data.isEmpty

/-- `needle` occurs as a contiguous substring of `hay` (the plain
"literal substring" reading of matching used by the spec). -/
def occursIn (needle hay : List Char) : Bool :=
  hay.tails.any (fun t => needle.isPrefixOf t)

/-- The escaping applied to the raw search term by the search route:
`rawTerm.replace(/[%_]/g, '\\$&')` — each `%` and `_` is preceded by a
backslash; every other character (including `\` itself) is kept as is. -/
def escapeLike : List Char → List Char
  | [] => []
  | c :: rest =>
    if c = '%' ∨ c = '_' then '\\' :: c :: escapeLike rest
    else c :: escapeLike rest

/-- The LIKE pattern built by the search route:
``likeTerm = `%${rawTerm.replace(/[%_]/g, '\\$&')}%` ``. -/
def likePattern (t : List Char) : List Char :=
  '%' :: (escapeLike t ++ ['%'])

/-- Evaluation of SQLite `pattern LIKE`-matching with `ESCAPE '\'`:
`%` matches any sequence, `_` any single character, a backslash makes the
following pattern character literal.  Case-insensitivity is irrelevant here
because the routes lower both the term and the columns before matching. -/
def likeMatch : List Char → List Char → Bool
  | [], s => s.isEmpty
  | '\\' :: p, s =>
    match p, s with
    | c :: p', e :: s' => c == e && likeMatch p' s'
    | _, _ => false
  | '%' :: p, s => s.tails.any (fun t => likeMatch p t)
  | '_' :: p, s =>
    match s with
    | _ :: s' => likeMatch p s'
    | [] => false
  | c :: p, s =>
    match s with
    | e :: s' => c == e && likeMatch p s'
    | [] => false

example : likeMatch (likePattern "carda".data) "spiced cardamom tea".data = true := by decide

example : likeMatch (likePattern "100%".data) "100% beef".data = true := by decide

example : likeMatch (likePattern "100%".data) "1009 beef".data = false := by decide

example : likeMatch (likePattern "\\".data) "100%".data = true := by decide

example : occursIn "\\".data "100%".data = false := by decide

/-! ## Relational store

One structure per table of the SQLite schema, with the `AUTOINCREMENT`
counters made explicit.  `created_at` columns are modelled by a logical
clock (`DB.clock`), and the REAL `quantity` column by `Option Rat`
(no arithmetic is ever performed on it). -/

/-- Row of the `cookbooks` table. -/
structure CookbookRow where
  id : Nat
  name : String
  createdAt : Nat
deriving Repr, DecidableEq

/-- Row of the `recipes` table. -/
structure RecipeRow where
  id : Nat
  cookbookId : Nat
  title : String
  description : String
  author : String
  photo : Option String
  uses : Int
  servings : Int
  createdAt : Nat
deriving Repr, DecidableEq

/-- Row of the `ingredients` table. -/
structure IngredientRow where
  id : Nat
  recipeId : Nat
  line : String
  quantity : Option Rat
  unit : Option String
  name : Option String
  position : Nat
deriving Repr, DecidableEq

/-- Row of the `steps` table. -/
structure StepRow where
  id : Nat
  recipeId : Nat
  instruction : String
  position : Nat
deriving Repr, DecidableEq

/-- Row of the `notes` table. -/
structure NoteRow where
  id : Nat
  recipeId : Nat
  content : String
deriving Repr, DecidableEq

/-- Row of the `tags` table (name `UNIQUE`, exact-match). -/
structure TagRow where
  id : Nat
  name : String
deriving Repr, DecidableEq

/-- Row of the `recipe_tags` link table (`PRIMARY KEY (recipe_id, tag_id)`). -/
structure RecipeTagRow where
  recipeId : Nat
  tagId : Nat
deriving Repr, DecidableEq

/-- Row of the `recipe_likes` table (`UNIQUE (recipe_id, name)`). -/
structure LikeRow where
  id : Nat
  recipeId : Nat
  name : String
  createdAt : Nat
deriving Repr, DecidableEq

/-- The whole SQLite database. -/
structure DB where
  cookbooks : List CookbookRow
  recipes : List RecipeRow
  ingredients : List IngredientRow
  steps : List StepRow
  notes : List NoteRow
  tags : List TagRow
  recipeTags : List RecipeTagRow
  likes : List LikeRow
  nextCookbookId : Nat
  nextRecipeId : Nat
  nextIngredientId : Nat
  nextStepId : Nat
  nextNoteId : Nat
  nextTagId : Nat
  nextLikeId : Nat
  clock : Nat
deriving Repr, DecidableEq

/-- State after bootstrap: empty tables, then the default cookbook seeded
because the cookbook count is zero (`INSERT INTO cookbooks ... 'My First
Cookbook'`). -/
def initDB : DB :=
  { cookbooks := [⟨1, "My First Cookbook", 0⟩]
    recipes := []
    ingredients := []
    steps := []
    notes := []
    tags := []
    recipeTags := []
    likes := []
    nextCookbookId := 2
    nextRecipeId := 1
    nextIngredientId := 1
    nextStepId := 1
    nextNoteId := 1
    nextTagId := 1
    nextLikeId := 1
    clock := 1 }

/-! ## Request bodies and validation (the zod schemas) -/

/-- `ingredientInputSchema = z.union([z.string().trim(), structuredIngredientSchema])`:
either a bare line or a structured object whose fields are all
optional/nullable (absent and `null` are collapsed into `none`). -/
inductive IngredientInput where
  | str (s : String)
  | obj (line : Option String) (quantity : Option Rat) (unit : Option String)
      (name : Option String)
deriving Repr, DecidableEq

/-- Raw body of `POST /api/recipes` before validation. -/
structure RecipeCreateBody where
  cookbook_id : Int
  title : String
  description : Option String
  author : Option String
  servings : Option Int
  ingredients : Option (List IngredientInput)
  steps : Option (List String)
  notes : Option String
  photoDataUrl : Option (Option String)
  tags : Option (List String)
deriving Repr, DecidableEq

/-- Raw body of `PATCH /api/recipes/:id` before validation. -/
structure RecipeUpdateBody where
  title : Option String
  description : Option String
  author : Option String
  servings : Option Int
  ingredients : Option (List IngredientInput)
  steps : Option (List String)
  notes : Option String
  photoDataUrl : Option (Option String)
  tags : Option (List String)
deriving Repr, DecidableEq

/-- Payload of `POST /api/recipes` after `recipeCreateSchema.safeParse`
succeeded (strings trimmed where the schema carries `.trim()`). -/
structure RecipeCreatePayload where
  cookbookId : Nat
  title : String
  description : Option String
  author : Option String
  servings : Option Int
  ingredients : Option (List IngredientInput)
  steps : Option (List String)
  notes : Option String
  photoDataUrl : Option (Option String)
  tags : Option (List String)
deriving Repr, DecidableEq

/-- Payload of `PATCH /api/recipes/:id` after `recipeUpdateSchema.safeParse`
succeeded. -/
structure RecipeUpdatePayload where
  title : Option String
  description : Option String
  author : Option String
  servings : Option Int
  ingredients : Option (List IngredientInput)
  steps : Option (List String)
  notes : Option String
  photoDataUrl : Option (Option String)
  tags : Option (List String)
deriving Repr, DecidableEq

/-- `z.string().trim().max(n)`: trim, then bound the length. -/
def vString (maxLen : Nat) (s : String) : Except String String :=
  let t := trimStr s
  if t.length ≤ maxLen then .ok t else .error "too long"

/-- `.optional()`: validate the field only when present. -/
def vOpt (f : α → Except String β) : Option α → Except String (Option β)
  | none => .ok none
  | some a => (f a).map some

/-- `z.array(inner).max(n)`. -/
def vList (maxLen : Nat) (f : α → Except String β) (l : List α) :
    Except String (List β) :=
  if l.length ≤ maxLen then l.mapM f else .error "array too long"

/-- `structuredIngredientSchema` / the bare-string branch of
`ingredientInputSchema`. -/
def vIngredient : IngredientInput → Except String IngredientInput
  | .str s => .ok (.str (trimStr s))
  | .obj line quantity unit name => do
    let line' ← vOpt (vString 500) line
    let unit' ← vOpt (vString 100) unit
    let name' ← vOpt (vString 255) name
    .ok (.obj line' quantity unit' name')

/-- `z.number().int().positive().max(999)` (servings). -/
def vServings (v : Int) : Except String Int :=
  if 0 < v ∧ v ≤ 999 then .ok v else .error "servings"

/-- `z.string().trim().min(1).max(64)` (a tag). -/
def vTag (s : String) : Except String String :=
  let t := trimStr s
  if 1 ≤ t.length ∧ t.length ≤ 64 then .ok t else .error "tag"

/-- `z.string().max(10_000)` (notes — no trim transform). -/
def vNotes (s : String) : Except String String :=
  if s.length ≤ 10000 then .ok s else .error "notes"

/-- `z.union([z.string().max(35_000_000), z.null()])` (photoDataUrl). -/
def vPhoto : Option String → Except String (Option String)
  | none => .ok none
  | some s => if s.length ≤ 35000000 then .ok (some s) else .error "photo"

/-- The shared part of `recipeBaseSchema`, validating everything but
`cookbook_id`/`title`. -/
def vBase (description author : Option String) (servings : Option Int)
    (ingredients : Option (List IngredientInput)) (steps : Option (List String))
    (notes : Option String) (photoDataUrl : Option (Option String))
    (tags : Option (List String)) :
    Except String (Option String × Option String × Option Int ×
      Option (List IngredientInput) × Option (List String) × Option String ×
      Option (Option String) × Option (List String)) := do
  let description' ← vOpt (vString 5000) description
  let author' ← vOpt (vString 255) author
  let servings' ← vOpt vServings servings
  let ingredients' ← vOpt (vList 500 vIngredient) ingredients
  let steps' ← vOpt (vList 500 (vString 2000)) steps
  let notes' ← vOpt vNotes notes
  let photo' ← vOpt vPhoto photoDataUrl
  let tags' ← vOpt (vList 50 vTag) tags
  .ok (description', author', servings', ingredients', steps', notes', photo', tags')

/-- `recipeCreateSchema.safeParse`. -/
def validateCreate (b : RecipeCreateBody) : Except String RecipeCreatePayload := do
  if 0 < b.cookbook_id then
    let title := trimStr b.title
    if strEmpty title ∨ 255 < title.length then .error "title"
    else do
      let (d, a, sv, ing, st, n, ph, tg) ← vBase b.description b.author b.servings
        b.ingredients b.steps b.notes b.photoDataUrl b.tags
      .ok ⟨b.cookbook_id.toNat, title, d, a, sv, ing, st, n, ph, tg⟩
  else .error "cookbook_id"

/-- `recipeUpdateSchema.safeParse` (title optional). -/
def validateUpdate (b : RecipeUpdateBody) : Except String RecipeUpdatePayload := do
  let title' ← vOpt (fun s =>
    let t := trimStr s
    if strEmpty t ∨ 255 < t.length then .error "title" else .ok t) b.title
  let (d, a, sv, ing, st, n, ph, tg) ← vBase b.description b.author b.servings
    b.ingredients b.steps b.notes b.photoDataUrl b.tags
  .ok ⟨title', d, a, sv, ing, st, n, ph, tg⟩

/-! ## Write helpers -/

/-- JS `a || b` on an optional string (`undefined`, `null` and `""` are
all falsy). -/
def jsOr (a : Option String) (b : String) : String :=
  match a with
  | some s => if strEmpty s then b else s
  | none => b

/-- The row written for one ingredient by `insertIngredients`: a structured
object keeps its fields with ``line = ing.line || (ing.name ? ing.name : '')``;
a bare string becomes the line with NULL quantity/unit/name. -/
def mkIngredientRow (id recipeId position : Nat) : IngredientInput → IngredientRow
  | .str s => ⟨id, recipeId, s, none, none, none, position⟩
  | .obj line quantity unit name =>
    ⟨id, recipeId, jsOr line (jsOr name ""), quantity, unit, name, position⟩

/-- The rows inserted by the `list.forEach((ing, idx) => stmt.run(...))`
loop, with autoincrement ids starting at `baseId` and positions at `pos`. -/
def ingredientRows (recipeId baseId pos : Nat) :
    List IngredientInput → List IngredientRow
  | [] => []
  | ing :: rest =>
    mkIngredientRow baseId recipeId pos ing ::
      ingredientRows recipeId (baseId + 1) (pos + 1) rest

/-- `insertIngredients(recipeId, list)`. -/
def insertIngredients (recipeId : Nat) (list : List IngredientInput) (db : DB) : DB :=
  if list.isEmpty then db
  else
    { db with
      ingredients := db.ingredients ++ ingredientRows recipeId db.nextIngredientId 0 list
      nextIngredientId := db.nextIngredientId + list.length }

/-- The rows inserted by `steps.forEach((step, idx) => stmt.run(...))`. -/
def stepRows (recipeId baseId pos : Nat) : List String → List StepRow
  | [] => []
  | instruction :: rest =>
    ⟨baseId, recipeId, instruction, pos⟩ :: stepRows recipeId (baseId + 1) (pos + 1) rest

/-- `insertSteps(recipeId, steps)`. -/
def insertSteps (recipeId : Nat) (steps : List String) (db : DB) : DB :=
  if steps.isEmpty then db
  else
    { db with
      steps := db.steps ++ stepRows recipeId db.nextStepId 0 steps
      nextStepId := db.nextStepId + steps.length }

/-- One iteration of the `insertTags` loop: trim, skip blanks,
`INSERT OR IGNORE INTO tags`, look the id up, `INSERT OR IGNORE INTO
recipe_tags`. -/
def insertTagOne (recipeId : Nat) (db : DB) (tag : String) : DB :=
  let name := trimStr tag
  if strEmpty name then db
  else
    let db1 :=
      if db.tags.any (fun t => t.name == name) then db
      else { db with tags := db.tags ++ [⟨db.nextTagId, name⟩],
                     nextTagId := db.nextTagId + 1 }
    match db1.tags.find? (fun t => t.name == name) with
    | some t =>
      if db1.recipeTags.any (fun l => l.recipeId == recipeId && l.tagId == t.id) then db1
      else { db1 with recipeTags := db1.recipeTags ++ [⟨recipeId, t.id⟩] }
    | none => db1

/-- `insertTags(recipeId, tags)`. -/
def insertTags (recipeId : Nat) (tags : Option (List String)) (db : DB) : DB :=
  match tags with
  | none => db
  | some ts => if ts.isEmpty then db else ts.foldl (insertTagOne recipeId) db

/-- Storage-level failures surfaced by `bun:sqlite` as exceptions. -/
inductive DbError where
  | foreignKey
deriving Repr, DecidableEq

/-- `INSERT INTO recipes ...` — fails with a foreign-key violation when the
cookbook does not exist (`PRAGMA foreign_keys = ON`). -/
def insertRecipeRow (db : DB) (cookbookId : Nat) (title description author : String)
    (photo : Option String) (servings : Int) : Except DbError (Nat × DB) :=
  if db.cookbooks.any (fun c => c.id == cookbookId) then
    .ok (db.nextRecipeId,
      { db with
        recipes := db.recipes ++
          [⟨db.nextRecipeId, cookbookId, title, description, author, photo, 0,
            servings, db.clock⟩]
        nextRecipeId := db.nextRecipeId + 1
        clock := db.clock + 1 })
  else .error .foreignKey

/-- `runTransaction`: `BEGIN` / run the handler / `COMMIT`, and on any
exception `ROLLBACK` (the pre-transaction state becomes current again) and
rethrow. -/
def runTransaction (db : DB) (handler : DB → Except DbError (α × DB)) :
    Except DbError α × DB :=
  match handler db with
  | .ok (a, db') => (.ok a, db')
  | .error e => (.error e, db)

/-! ## Route handlers -/

/-- The caller-visible outcome of a route: a 200 payload, a 400 validation
failure, a 404, or a 500 from an exception that escaped the handler. -/
inductive Resp (α : Type) where
  | ok (value : α)
  | badRequest (message : String)
  | notFound
  | serverError (e : DbError)
deriving Repr, DecidableEq

/-- Whether a response is the 500 produced by a storage exception. -/
def Resp.isServerError : Resp α → Bool
  | .serverError _ => true
  | _ => false

/-- Map `id` rows of `recipes` through `f` (an `UPDATE ... WHERE id = ?`). -/
def updateRecipeRows (id : Nat) (f : RecipeRow → RecipeRow) (db : DB) : DB :=
  { db with recipes := db.recipes.map (fun r => if r.id == id then f r else r) }

/-- Turn a transaction outcome into a response: a committed result becomes a
200, an exception a 500. -/
def txResp (db : DB) (g : DB → Except DbError (α × DB)) : Resp α × DB :=
  match runTransaction db g with
  | (.ok v, db') => (.ok v, db')
  | (.error e, db') => (.serverError e, db')

/-- The conditional notes insert of the create path:
`if (payload.notes?.trim()) INSERT INTO notes ...` — the row keeps the
untrimmed text. -/
def insertNoteIfPresent (recipeId : Nat) (notes : Option String) (db : DB) : DB :=
  match notes with
  | some n =>
    if strEmpty (trimStr n) then db
    else { db with notes := db.notes ++ [⟨db.nextNoteId, recipeId, n⟩],
                   nextNoteId := db.nextNoteId + 1 }
  | none => db

/-- The `create` closure of `POST /api/recipes`: insert the recipe row,
ingredients, steps, a note when non-blank, and tags. -/
def createTx (p : RecipeCreatePayload) (db0 : DB) : Except DbError (Nat × DB) := do
  let (recipeId, db1) ← insertRecipeRow db0 p.cookbookId p.title
    (p.description.getD "") (p.author.getD "") p.photoDataUrl.join
    (p.servings.getD 1)
  let db2 := insertIngredients recipeId (p.ingredients.getD []) db1
  let db3 := insertSteps recipeId (p.steps.getD []) db2
  let db4 := insertNoteIfPresent recipeId p.notes db3
  let db5 := insertTags recipeId p.tags db4
  .ok (recipeId, db5)

/-- `POST /api/recipes`: validate, then run `createTx` inside one
transaction. -/
def postRecipes (db : DB) (body : RecipeCreateBody) : Resp Nat × DB :=
  match validateCreate body with
  | .error msg => (.badRequest msg, db)
  | .ok p => txResp db (createTx p)

/-- The body of the `update` closure of `PATCH /api/recipes/:id`: scalar
column updates for the fields present, then delete-and-replace for
`ingredients`/`steps`, then delete-and-conditionally-insert for `notes`. -/
def applyUpdate (id : Nat) (p : RecipeUpdatePayload) (db0 : DB) : DB :=
  let db1 := updateRecipeRows id (fun r =>
    { r with
      title := p.title.getD r.title
      description := p.description.getD r.description
      author := p.author.getD r.author
      photo := match p.photoDataUrl with
        | some v => v
        | none => r.photo
      servings := p.servings.getD r.servings }) db0
  let db2 :=
    match p.ingredients with
    | some l =>
      insertIngredients id l
        { db1 with ingredients := db1.ingredients.filter (fun i => i.recipeId ≠ id) }
    | none => db1
  let db3 :=
    match p.steps with
    | some l =>
      insertSteps id l
        { db2 with steps := db2.steps.filter (fun s => s.recipeId ≠ id) }
    | none => db2
  match p.notes with
  | some n =>
    let d := { db3 with notes := db3.notes.filter (fun nr => nr.recipeId ≠ id) }
    if strEmpty (trimStr n) then d
    else { d with notes := d.notes ++ [⟨d.nextNoteId, id, n⟩],
                  nextNoteId := d.nextNoteId + 1 }
  | none => db3

/-- `PATCH /api/recipes/:id`: id validation, then the existence check, then
body validation, then the transactional update. -/
def patchRecipes (db : DB) (idRaw : Int) (body : RecipeUpdateBody) : Resp Unit × DB :=
  if 0 < idRaw then
    let id := idRaw.toNat
    if db.recipes.any (fun r => r.id == id) then
      match validateUpdate body with
      | .error msg => (.badRequest msg, db)
      | .ok p => txResp db (fun db0 => .ok ((), applyUpdate id p db0))
    else (.notFound, db)
  else (.badRequest "id", db)

/-- `POST /api/recipes/:id/increment-uses`. -/
def incrementUses (db : DB) (idRaw : Int) : Resp Int × DB :=
  if 0 < idRaw then
    let id := idRaw.toNat
    if db.recipes.any (fun r => r.id == id) then
      let db' := updateRecipeRows id (fun r => { r with uses := r.uses + 1 }) db
      (.ok (match db'.recipes.find? (fun r => r.id == id) with
            | some r => r.uses
            | none => 0), db')
    else (.notFound, db)
  else (.badRequest "id", db)

/-- `POST /api/recipes/:id/decrement-uses`: read the current value, clamp
the decrement at 0, and write only when the value changes. -/
def decrementUses (db : DB) (idRaw : Int) : Resp Int × DB :=
  if 0 < idRaw then
    let id := idRaw.toNat
    match db.recipes.find? (fun r => r.id == id) with
    | none => (.notFound, db)
    | some existing =>
      let next := if existing.uses > 0 then existing.uses - 1 else 0
      let db' :=
        if next ≠ existing.uses then
          updateRecipeRows id (fun r => { r with uses := next }) db
        else db
      (.ok next, db')
  else (.badRequest "id", db)

/-- `POST /api/recipes/:id/tags`. -/
def addTag (db : DB) (idRaw : Int) (rawName : Option String) : Resp Unit × DB :=
  if 0 < idRaw then
    let id := idRaw.toNat
    if db.recipes.any (fun r => r.id == id) then
      match rawName with
      | none => (.badRequest "name", db)
      | some s =>
        let name := trimStr s
        if strEmpty name ∨ 255 < name.length then (.badRequest "name", db)
        else
          let db1 :=
            if db.tags.any (fun t => t.name == name) then db
            else { db with tags := db.tags ++ [⟨db.nextTagId, name⟩],
                           nextTagId := db.nextTagId + 1 }
          match db1.tags.find? (fun t => t.name == name) with
          | some t =>
            if db1.recipeTags.any (fun l => l.recipeId == id && l.tagId == t.id) then
              (.ok (), db1)
            else (.ok (), { db1 with recipeTags := db1.recipeTags ++ [⟨id, t.id⟩] })
          | none => (.ok (), db1)
    else (.notFound, db)
  else (.badRequest "id", db)

/-- `DELETE /api/recipes/:id/tags/:name`. -/
def removeTag (db : DB) (idRaw : Int) (rawName : String) : Resp Unit × DB :=
  if 0 < idRaw then
    let id := idRaw.toNat
    let name := trimStr rawName
    if strEmpty name ∨ 255 < name.length then (.badRequest "name", db)
    else if db.recipes.any (fun r => r.id == id) then
      match db.tags.find? (fun t => t.name == name) with
      | some t =>
        let remaining := db.recipeTags.filter (fun l => ¬(l.recipeId = id ∧ l.tagId = t.id))
        (.ok (), { db with recipeTags := remaining })
      | none => (.ok (), db)
    else (.notFound, db)
  else (.badRequest "id", db)

/-- `POST /api/recipes/:id/likes`: `INSERT OR IGNORE` against the
`UNIQUE (recipe_id, name)` constraint. -/
def addLike (db : DB) (idRaw : Int) (rawName : Option String) : Resp Unit × DB :=
  if 0 < idRaw then
    let id := idRaw.toNat
    if db.recipes.any (fun r => r.id == id) then
      match rawName with
      | none => (.badRequest "name", db)
      | some s =>
        let name := trimStr s
        if strEmpty name ∨ 255 < name.length then (.badRequest "name", db)
        else if db.likes.any (fun l => l.recipeId == id && l.name == name) then
          (.ok (), db)
        else
          (.ok (), { db with likes := db.likes ++ [⟨db.nextLikeId, id, name, db.clock⟩],
                             nextLikeId := db.nextLikeId + 1
                             clock := db.clock + 1 })
    else (.notFound, db)
  else (.badRequest "id", db)

/-- `DELETE /api/recipes/:id/likes/:name`. -/
def removeLike (db : DB) (idRaw : Int) (rawName : String) : Resp Unit × DB :=
  if 0 < idRaw then
    let id := idRaw.toNat
    let name := trimStr rawName
    if strEmpty name ∨ 255 < name.length then (.badRequest "name", db)
    else if db.recipes.any (fun r => r.id == id) then
      let remaining := db.likes.filter (fun l => ¬(l.recipeId = id ∧ l.name = name))
      (.ok (), { db with likes := remaining })
    else (.notFound, db)
  else (.badRequest "id", db)

/-- `DELETE /api/recipes/:id` with the schema's `ON DELETE CASCADE` on
every child table. -/
def deleteRecipe (db : DB) (idRaw : Int) : Resp Unit × DB :=
  if 0 < idRaw then
    let id := idRaw.toNat
    if db.recipes.any (fun r => r.id == id) then
      (.ok (),
        { db with
          recipes := db.recipes.filter (fun r => r.id ≠ id)
          ingredients := db.ingredients.filter (fun i => i.recipeId ≠ id)
          steps := db.steps.filter (fun s => s.recipeId ≠ id)
          notes := db.notes.filter (fun n => n.recipeId ≠ id)
          recipeTags := db.recipeTags.filter (fun l => l.recipeId ≠ id)
          likes := db.likes.filter (fun l => l.recipeId ≠ id) })
    else (.notFound, db)
  else (.badRequest "id", db)

/-- `POST /api/cookbooks`. -/
def postCookbooks (db : DB) (rawName : Option String) : Resp Nat × DB :=
  match rawName with
  | none => (.badRequest "name", db)
  | some s =>
    let name := trimStr s
    if strEmpty name ∨ 255 < name.length then (.badRequest "name", db)
    else
      (.ok db.nextCookbookId,
        { db with cookbooks := db.cookbooks ++ [⟨db.nextCookbookId, name, db.clock⟩],
                  nextCookbookId := db.nextCookbookId + 1
                  clock := db.clock + 1 })

/-- `PATCH /api/cookbooks/:id`. -/
def patchCookbooks (db : DB) (idRaw : Int) (rawName : Option String) : Resp Unit × DB :=
  if 0 < idRaw then
    match rawName with
    | none => (.badRequest "name", db)
    | some s =>
      let name := trimStr s
      if strEmpty name ∨ 255 < name.length then (.badRequest "name", db)
      else
        let id := idRaw.toNat
        if db.cookbooks.any (fun c => c.id == id) then
          let renamed := db.cookbooks.map (fun c => if c.id == id then { c with name := name } else c)
          (.ok (), { db with cookbooks := renamed })
        else (.notFound, db)
  else (.badRequest "id", db)

/-- `DELETE /api/cookbooks/:id`: the delete cascades to recipes and from
there to all their child rows. -/
def deleteCookbook (db : DB) (idRaw : Int) : Resp Unit × DB :=
  if 0 < idRaw then
    let id := idRaw.toNat
    if db.cookbooks.any (fun c => c.id == id) then
      let deadRecipes := (db.recipes.filter (fun r => r.cookbookId = id)).map (·.id)
      (.ok (),
        { db with
          cookbooks := db.cookbooks.filter (fun c => c.id ≠ id)
          recipes := db.recipes.filter (fun r => r.cookbookId ≠ id)
          ingredients := db.ingredients.filter (fun i => ¬ deadRecipes.contains i.recipeId)
          steps := db.steps.filter (fun s => ¬ deadRecipes.contains s.recipeId)
          notes := db.notes.filter (fun n => ¬ deadRecipes.contains n.recipeId)
          recipeTags := db.recipeTags.filter (fun l => ¬ deadRecipes.contains l.recipeId)
          likes := db.likes.filter (fun l => ¬ deadRecipes.contains l.recipeId) })
    else (.notFound, db)
  else (.badRequest "id", db)

/-! ## Read routes -/

/-- An element of the JSON array returned by the list and search routes:
the recipe row spread together with its tag names and liker names. -/
structure RecipeSummary where
  recipe : RecipeRow
  tags : List String
  likes : List String
deriving Repr, DecidableEq

/-- `ORDER BY LOWER(title) ASC, id ASC`. -/
def recipeLE (a b : RecipeRow) : Bool :=
  if lowerStr a.title = lowerStr b.title then a.id ≤ b.id
  else decide (lowerStr a.title < lowerStr b.title)

/-- Insertion into a list sorted by `recipeLE`. -/
def insertRecipeSorted (r : RecipeRow) : List RecipeRow → List RecipeRow
  | [] => [r]
  | x :: xs => if recipeLE r x then r :: x :: xs else x :: insertRecipeSorted r xs

/-- Sorting by `ORDER BY LOWER(title) ASC, id ASC`. -/
def sortRecipes (l : List RecipeRow) : List RecipeRow :=
  l.foldr insertRecipeSorted []

/-- `fetchTags` restricted to one recipe: tag names joined through
`recipe_tags`, in link-row order. -/
def tagsOf (db : DB) (recipeId : Nat) : List String :=
  (db.recipeTags.filter (fun l => l.recipeId == recipeId)).filterMap
    (fun l => (db.tags.find? (fun t => t.id == l.tagId)).map (·.name))

/-- `fetchLikes` restricted to one recipe. -/
def likesOf (db : DB) (recipeId : Nat) : List String :=
  (db.likes.filter (fun l => l.recipeId == recipeId)).map (·.name)

/-- The per-row enrichment `{...r, tags, likes}` of the list/search routes. -/
def enrich (db : DB) (rs : List RecipeRow) : List RecipeSummary :=
  rs.map (fun r => ⟨r, tagsOf db r.id, likesOf db r.id⟩)

/-- `GET /api/recipes?cookbookId=...`. -/
def listRecipes (db : DB) (cookbookIdRaw : Int) : Resp (List RecipeSummary) :=
  if 0 < cookbookIdRaw then
    let cid := cookbookIdRaw.toNat
    let recipes := sortRecipes (db.recipes.filter (fun r => r.cookbookId == cid))
    if recipes.isEmpty then .ok []
    else .ok (enrich db recipes)
  else .badRequest "cookbookId is required"

/-- The `whereClause` of the search route applied to one recipe: the four
`LIKE ? ESCAPE '\'` disjuncts over the lowered title, description, linked
tag names and liker names. -/
def searchMatches (db : DB) (pattern : List Char) (r : RecipeRow) : Bool :=
  likeMatch pattern (lowerStr r.title).data ||
  likeMatch pattern (lowerStr r.description).data ||
  db.recipeTags.any (fun l =>
    l.recipeId == r.id &&
    ((db.tags.find? (fun t => t.id == l.tagId)).map
      (fun t => likeMatch pattern (lowerStr t.name).data)).getD false) ||
  db.likes.any (fun l =>
    l.recipeId == r.id && likeMatch pattern (lowerStr l.name).data)

/-- `GET /api/recipes/search?cookbookId=...&q=...`: lower and trim the term;
a blank term yields the plain listing query, a non-blank one adds the
`whereClause` and a `LIMIT 200`. -/
def searchRecipes (db : DB) (cookbookIdRaw : Int) (q : Option String) :
    Resp (List RecipeSummary) :=
  if 0 < cookbookIdRaw then
    let cid := cookbookIdRaw.toNat
    let rawTerm := lowerStr (trimStr (q.getD ""))
    let hasTerm := 0 < rawTerm.length
    let pattern := likePattern rawTerm.data
    let recipes := sortRecipes (db.recipes.filter (fun r =>
      r.cookbookId == cid && (!hasTerm || searchMatches db pattern r)))
    let limited := if hasTerm then recipes.take 200 else recipes
    if limited.isEmpty then .ok []
    else .ok (enrich db limited)
  else .badRequest "cookbookId is required"

/-! ## Ingredient catalog (modelled from the spec) -/

/-- Modelled from the spec: an entry of the ingredient catalog
(`ingredient_names`). The catalog implementation (`resolve`, `linkLine`,
`suggestions`, the `/api/ingredients` route and the `ingredient_id` column)
is absent from the sources; only its tests remain, so §3 and §4.3 of the
spec are the model here. -/
structure CatalogEntry where
  id : Nat
  name : String
deriving Repr, DecidableEq

/-- Modelled from the spec: the catalog table plus the `ingredient_id`
links stored on ingredient lines (pairs of line id and catalog id). -/
structure CatalogState where
  entries : List CatalogEntry
  nextId : Nat
  links : List (Nat × Nat)
deriving Repr, DecidableEq

/-- Modelled from the spec: `resolve(name) -> catalog_id` — case-insensitive
lookup; when no entry matches, create one preserving the given spelling;
return the existing id regardless of input casing. -/
def resolve (st : CatalogState) (name : String) : Nat × CatalogState :=
  match st.entries.find? (fun e => lowerStr e.name == lowerStr name) with
  | some e => (e.id, st)
  | none =>
    (st.nextId,
      { st with entries := st.entries ++ [⟨st.nextId, name⟩], nextId := st.nextId + 1 })

/-- Modelled from the spec: `linkLine(ingredientLineId, name)` — resolve and
store the catalog id on the line; no-op when `name` is blank. -/
def linkLine (st : CatalogState) (lineId : Nat) (name : String) : CatalogState :=
  if strEmpty (trimStr name) then st
  else
    let resolved := resolve st (trimStr name)
    { resolved.2 with links := resolved.2.links ++ [(lineId, resolved.1)] }

/-- Modelled from the spec: `suggestions()` — the distinct canonical catalog
names referenced by at least one ingredient line, in insertion order. -/
def suggestions (st : CatalogState) : List String :=
  (st.entries.filter (fun e => st.links.any (fun l => l.2 == e.id))).map (·.name)

/-! ## Referential integrity -/

/-- Some recipe row carries this id. -/
def RefsRecipe (db : DB) (recipeId : Nat) : Prop :=
  ∃ r ∈ db.recipes, r.id = recipeId

/-- No orphaned rows: every child row references an existing parent, as the
schema's foreign keys demand with `PRAGMA foreign_keys = ON`. -/
structure NoOrphans (db : DB) : Prop where
  recipesRef : ∀ r ∈ db.recipes, ∃ c ∈ db.cookbooks, c.id = r.cookbookId
  ingredientsRef : ∀ i ∈ db.ingredients, RefsRecipe db i.recipeId
  stepsRef : ∀ s ∈ db.steps, RefsRecipe db s.recipeId
  notesRef : ∀ n ∈ db.notes, RefsRecipe db n.recipeId
  tagLinksRefRecipe : ∀ l ∈ db.recipeTags, RefsRecipe db l.recipeId
  tagLinksRefTag : ∀ l ∈ db.recipeTags, ∃ t ∈ db.tags, t.id = l.tagId
  likesRef : ∀ l ∈ db.likes, RefsRecipe db l.recipeId

/-- One mutating request of the API. -/
inductive ApiStep : DB → DB → Prop where
  | createCookbook (db : DB) (name : Option String) :
      ApiStep db (postCookbooks db name).2
  | renameCookbook (db : DB) (id : Int) (name : Option String) :
      ApiStep db (patchCookbooks db id name).2
  | removeCookbook (db : DB) (id : Int) :
      ApiStep db (deleteCookbook db id).2
  | createRecipe (db : DB) (body : RecipeCreateBody) :
      ApiStep db (postRecipes db body).2
  | updateRecipe (db : DB) (id : Int) (body : RecipeUpdateBody) :
      ApiStep db (patchRecipes db id body).2
  | removeRecipe (db : DB) (id : Int) :
      ApiStep db (deleteRecipe db id).2
  | bumpUses (db : DB) (id : Int) :
      ApiStep db (incrementUses db id).2
  | dropUses (db : DB) (id : Int) :
      ApiStep db (decrementUses db id).2
  | tagAdd (db : DB) (id : Int) (name : Option String) :
      ApiStep db (addTag db id name).2
  | tagRemove (db : DB) (id : Int) (name : String) :
      ApiStep db (removeTag db id name).2
  | likeAdd (db : DB) (id : Int) (name : Option String) :
      ApiStep db (addLike db id name).2
  | likeRemove (db : DB) (id : Int) (name : String) :
      ApiStep db (removeLike db id name).2

/-- States reachable from the bootstrapped store through API requests. -/
def Reachable (db : DB) : Prop :=
  Relation.ReflTransGen ApiStep initDB db

/-! ## Theorems -/

theorem txResp_error (db : DB) (g : DB → Except DbError (α × DB)) :
    (txResp db g).1.isServerError = true → (txResp db g).2 = db := by
  intro h
  unfold txResp runTransaction at h ⊢
  cases hg : g db with
  | ok v =>
    obtain ⟨a, dbx⟩ := v
    rw [hg] at h
    simp [Resp.isServerError] at h
  | error e => rfl

/-- C2: any exception raised inside the transaction of `POST /api/recipes`
or `PATCH /api/recipes/:id` rolls the whole transaction back: the state
afterwards is exactly the state before the request, for an arbitrary
failing write phase (`runTransaction`) as well as for the two concrete
handlers, so a partially applied write is never observable. -/
theorem c2_write_failure_rolls_back (db : DB) (cbody : RecipeCreateBody)
    (idRaw : Int) (ubody : RecipeUpdateBody) (f : DB → Except DbError (α × DB)) :
    (∀ e db', runTransaction db f = (.error e, db') → db' = db) ∧
    ((postRecipes db cbody).1.isServerError = true → (postRecipes db cbody).2 = db) ∧
    ((patchRecipes db idRaw ubody).1.isServerError = true →
      (patchRecipes db idRaw ubody).2 = db) := by
  refine ⟨?_, ?_, ?_⟩
  · intro e db' h
    unfold runTransaction at h
    cases hf : f db with
    | ok v => rw [hf] at h; cases h
    | error e' => rw [hf] at h; cases h; rfl
  · intro h
    unfold postRecipes at h ⊢
    cases hv : validateCreate cbody with
    | error m => rw [hv] at h
    | ok p => rw [hv] at h; exact txResp_error db (createTx p) h
  · intro h
    unfold patchRecipes at h ⊢
    by_cases hpos : 0 < idRaw
    · rw [if_pos hpos] at h ⊢
      by_cases hex : db.recipes.any (fun r => r.id == idRaw.toNat) = true
      · simp only [hex, if_true] at h ⊢
        cases hv : validateUpdate ubody with
        | error m => rw [hv] at h
        | ok p => rw [hv] at h; exact txResp_error db _ h
      · rw [Bool.not_eq_true] at hex
        simp [hex, Resp.isServerError] at h
    · rw [if_neg hpos] at h
      simp [Resp.isServerError] at h

/-- C2 witness: creating a recipe in the nonexistent cookbook 2 from the
bootstrapped store raises a foreign-key violation inside the transaction,
and the store afterwards is exactly the bootstrapped store. -/
theorem c2_write_failure_rolls_back_witness :
    (postRecipes initDB ⟨2, "X", none, none, none, none, none, none, none, none⟩).1.isServerError = true ∧
    (postRecipes initDB ⟨2, "X", none, none, none, none, none, none, none, none⟩).2 = initDB :=
  ⟨by decide,
   (c2_write_failure_rolls_back initDB
      ⟨2, "X", none, none, none, none, none, none, none, none⟩ 1
      ⟨none, none, none, none, none, none, none, none, none⟩
      (fun db => Except.ok ((), db))).2.1 (by decide)⟩

/-- C5: searching with a blank term (empty or whitespace-only) returns
exactly the same response as listing the cookbook — same recipes, same
order, same tag/like enrichment. -/
theorem c5_blank_search_equals_list (db : DB) (cookbookIdRaw : Int)
    (q : Option String) (hblank : trimStr (q.getD "") = "") :
    searchRecipes db cookbookIdRaw q = listRecipes db cookbookIdRaw := by
  unfold searchRecipes listRecipes
  rw [hblank]
  simp [lowerStr]

/-- C5 witness: a whitespace-only term against the bootstrapped store. -/
theorem c5_blank_search_equals_list_witness :
    searchRecipes initDB 1 (some "   ") = listRecipes initDB 1 :=
  c5_blank_search_equals_list initDB 1 (some "   ") (by decide)

/-- C10: `PATCH /api/recipes/:id` checks recipe existence before it parses
the body: a positive id that matches no recipe yields a 404 and an
unchanged store, whatever the body (valid or not). -/
theorem c10_missing_recipe_checked_before_validation (db : DB) (idRaw : Int)
    (hpos : 0 < idRaw)
    (hmiss : db.recipes.any (fun r => r.id == idRaw.toNat) = false)
    (body : RecipeUpdateBody) :
    patchRecipes db idRaw body = (.notFound, db) := by
  unfold patchRecipes
  simp [hpos, hmiss]

/-- C10 witness: patching recipe 5 of the bootstrapped store (which has no
recipes) with a body that would fail validation (blank title). -/
theorem c10_missing_recipe_checked_before_validation_witness :
    patchRecipes initDB 5 ⟨some "  ", none, none, none, none, none, none, none, none⟩ =
      (.notFound, initDB) :=
  c10_missing_recipe_checked_before_validation initDB 5 (by decide) (by decide)
    ⟨some "  ", none, none, none, none, none, none, none, none⟩

theorem find?_map_update (l : List RecipeRow) (id : Nat) (f : RecipeRow → RecipeRow)
    (hf : ∀ r, (f r).id = r.id) :
    (l.map (fun r => if r.id == id then f r else r)).find? (fun r => r.id == id) =
      (l.find? (fun r => r.id == id)).map f := by
  induction l with
  | nil => rfl
  | cons r rest ih =>
    simp only [List.map_cons]
    by_cases hr : (r.id == id) = true
    · have hfr : ((f r).id == id) = true := by rw [hf r]; exact hr
      rw [if_pos hr]
      simp [List.find?, hfr, hr]
    · rw [if_neg hr]
      have hrf : (r.id == id) = false := by simpa using hr
      simp only [List.find?, hrf]
      exact ih

/-- C8: `decrementUses` 404s on a missing recipe; on an existing one it
reports success with the stored value clamped at a floor of 0 — from `u > 0`
the stored value becomes `u - 1`, from 0 the call is a no-op on the store
and still returns 0 — and a non-negative counter never becomes negative. -/
theorem c8_decrement_uses_clamped (db : DB) (idRaw : Int) (hpos : 0 < idRaw) :
    (db.recipes.find? (fun r => r.id == idRaw.toNat) = none →
      decrementUses db idRaw = (.notFound, db)) ∧
    (∀ r, db.recipes.find? (fun x => x.id == idRaw.toNat) = some r →
      (decrementUses db idRaw).1 = .ok (if 0 < r.uses then r.uses - 1 else 0) ∧
      (r.uses = 0 → (decrementUses db idRaw).2 = db) ∧
      ((decrementUses db idRaw).2.recipes.find? (fun x => x.id == idRaw.toNat) =
        some { r with uses := if 0 < r.uses then r.uses - 1 else 0 }) ∧
      (0 ≤ r.uses → 0 ≤ (if 0 < r.uses then r.uses - 1 else 0))) := by
  constructor
  · intro hnone
    unfold decrementUses
    rw [if_pos hpos]
    dsimp only
    rw [hnone]
  · intro r hsome
    unfold decrementUses
    rw [if_pos hpos]
    dsimp only
    rw [hsome]
    refine ⟨?_, ?_, ?_, ?_⟩
    · by_cases hu : 0 < r.uses
      · have hgt : r.uses > 0 := hu
        simp [hgt, hu]
      · have hle : ¬ (r.uses > 0) := hu
        simp [hle, hu]
    · intro h0
      have : ¬ (r.uses > 0) := by omega
      simp [this, h0]
    · by_cases hu : 0 < r.uses
      · have hgt : r.uses > 0 := hu
        have hne : r.uses - 1 ≠ r.uses := by omega
        simp only [hgt, if_true, hu, hne, ne_eq, not_false_eq_true]
        unfold updateRecipeRows
        dsimp only
        rw [find?_map_update db.recipes idRaw.toNat
          (fun x => { x with uses := r.uses - 1 }) (fun x => rfl)]
        rw [hsome]
        rfl
      · have hle : ¬ (r.uses > 0) := hu
        by_cases h0 : r.uses = 0
        · obtain ⟨a, b, c, d, e, f2, g, h2, i⟩ := r
          simp only at h0
          subst h0
          simp [hle, hsome]
        · have hne : (0 : Int) ≠ r.uses := by omega
          simp only [hle, if_false, ne_eq, hne, not_false_eq_true, if_true]
          unfold updateRecipeRows
          dsimp only
          rw [find?_map_update db.recipes idRaw.toNat
            (fun x => { x with uses := 0 }) (fun x => rfl)]
          rw [hsome]
          simp [hu]
    · intro hge
      by_cases hu : 0 < r.uses
      · simp only [hu, if_true]; omega
      · simp only [hu, if_false]; omega

/-- C8 witness: decrementing the freshly created recipe 1 (whose `uses` is
0) reports success with value 0 and leaves the store unchanged. -/
theorem c8_decrement_uses_clamped_witness :
    (decrementUses (postRecipes initDB
        ⟨1, "Tea", none, none, none, none, none, none, none, none⟩).2 1).1 = .ok 0 ∧
    (decrementUses (postRecipes initDB
        ⟨1, "Tea", none, none, none, none, none, none, none, none⟩).2 1).2 =
      (postRecipes initDB
        ⟨1, "Tea", none, none, none, none, none, none, none, none⟩).2 := by
  have h := (c8_decrement_uses_clamped (postRecipes initDB
      ⟨1, "Tea", none, none, none, none, none, none, none, none⟩).2 1 (by decide)).2
    ⟨1, 1, "Tea", "", "", none, 0, 1, 1⟩ (by decide)
  exact ⟨by simpa using h.1, h.2.1 rfl⟩

/-- Number of stored `(recipe_id, name)` like rows. -/
def countLikes (db : DB) (recipeId : Nat) (name : String) : Nat :=
  (db.likes.filter (fun l => l.recipeId == recipeId && l.name == name)).length

theorem filter_count_pos (l : List LikeRow) (p : LikeRow → Bool)
    (h : l.any p = true) : 0 < (l.filter p).length := by
  rw [List.any_eq_true] at h
  obtain ⟨x, hx, hpx⟩ := h
  have : x ∈ l.filter p := List.mem_filter.mpr ⟨hx, hpx⟩
  exact List.length_pos.mpr (List.ne_nil_of_mem this)

theorem filter_count_zero (l : List LikeRow) (p : LikeRow → Bool)
    (h : l.any p = false) : (l.filter p).length = 0 := by
  rw [List.any_eq_false] at h
  rw [List.filter_eq_nil_iff.mpr (fun a ha => h a ha)]
  rfl

theorem count_pos_any (l : List LikeRow) (p : LikeRow → Bool)
    (h : 0 < (l.filter p).length) : l.any p = true := by
  by_contra hc
  rw [Bool.not_eq_true] at hc
  have := filter_count_zero l p hc
  omega

/-- C9: `addLike` on an existing recipe with a non-blank name succeeds;
afterwards exactly one `(recipe_id, name)` row exists, the second (and any
further) identical call is a no-op that still reports success, and after
any number of calls the row count is still exactly one. -/
theorem c9_add_like_idempotent (db : DB) (idRaw : Int) (s : String)
    (hpos : 0 < idRaw)
    (hex : db.recipes.any (fun r => r.id == idRaw.toNat) = true)
    (hne : strEmpty (trimStr s) = false) (hlen : (trimStr s).length ≤ 255)
    (huniq : countLikes db idRaw.toNat (trimStr s) ≤ 1) :
    (addLike db idRaw (some s)).1 = .ok () ∧
    countLikes (addLike db idRaw (some s)).2 idRaw.toNat (trimStr s) = 1 ∧
    addLike (addLike db idRaw (some s)).2 idRaw (some s) =
      (.ok (), (addLike db idRaw (some s)).2) ∧
    (∀ k, countLikes ((fun d => (addLike d idRaw (some s)).2)^[k + 1] db)
        idRaw.toNat (trimStr s) = 1) := by
  have hcond : ¬ (strEmpty (trimStr s) = true ∨ 255 < (trimStr s).length) := by
    intro hc
    rcases hc with hc | hc
    · rw [hne] at hc; cases hc
    · omega
  have step : ∀ d : DB, d.recipes.any (fun r => r.id == idRaw.toNat) = true →
      countLikes d idRaw.toNat (trimStr s) ≤ 1 →
      (addLike d idRaw (some s)).1 = .ok () ∧
      countLikes (addLike d idRaw (some s)).2 idRaw.toNat (trimStr s) = 1 ∧
      (addLike d idRaw (some s)).2.recipes = d.recipes := by
    intro d hexd huniqd
    unfold addLike
    rw [if_pos hpos]
    dsimp only
    simp only [hexd, if_true]
    rw [if_neg hcond]
    by_cases hdup : d.likes.any (fun l => l.recipeId == idRaw.toNat && l.name == trimStr s) = true
    · simp only [hdup, if_true]
      refine ⟨trivial, ?_, trivial⟩
      have := filter_count_pos d.likes _ hdup
      unfold countLikes at huniqd ⊢
      omega
    · rw [Bool.not_eq_true] at hdup
      simp only [hdup, Bool.false_eq_true, if_false]
      refine ⟨trivial, ?_, trivial⟩
      unfold countLikes
      dsimp only
      rw [List.filter_append, List.length_append]
      have h0 := filter_count_zero d.likes _ hdup
      rw [h0]
      simp
  obtain ⟨h1, h2, h3⟩ := step db hex huniq
  have hex2 : (addLike db idRaw (some s)).2.recipes.any (fun r => r.id == idRaw.toNat) = true := by
    rw [h3]; exact hex
  have hany2 : (addLike db idRaw (some s)).2.likes.any
      (fun l => l.recipeId == idRaw.toNat && l.name == trimStr s) = true := by
    apply count_pos_any
    unfold countLikes at h2
    omega
  refine ⟨h1, h2, ?_, ?_⟩
  · obtain ⟨d1, hd1⟩ : ∃ d1, (addLike db idRaw (some s)).2 = d1 := ⟨_, rfl⟩
    rw [hd1] at hex2 hany2 ⊢
    unfold addLike
    rw [if_pos hpos]
    dsimp only
    simp only [hex2, if_true]
    rw [if_neg hcond]
    simp only [hany2, if_true]
  · intro k
    have iter : ∀ k, countLikes ((fun d => (addLike d idRaw (some s)).2)^[k + 1] db)
        idRaw.toNat (trimStr s) = 1 ∧
        ((fun d => (addLike d idRaw (some s)).2)^[k + 1] db).recipes = db.recipes := by
      intro k
      induction k with
      | zero => simpa using ⟨h2, h3⟩
      | succ n ihn =>
        rw [Function.iterate_succ_apply']
        obtain ⟨ihc, ihr⟩ := ihn
        have hexn : ((fun d => (addLike d idRaw (some s)).2)^[n + 1] db).recipes.any
            (fun r => r.id == idRaw.toNat) = true := by rw [ihr]; exact hex
        obtain ⟨_, hc, hr⟩ := step _ hexn (by omega)
        exact ⟨hc, by rw [hr, ihr]⟩
    exact (iter k).1

/-- C9 witness: liking recipe 1 as "Alex" gives exactly one like row, and
the repeated call is a success-reporting no-op. -/
theorem c9_add_like_idempotent_witness :
    (addLike (postRecipes initDB
        ⟨1, "Tea", none, none, none, none, none, none, none, none⟩).2 1 (some "Alex")).1 = .ok () ∧
    countLikes (addLike (postRecipes initDB
        ⟨1, "Tea", none, none, none, none, none, none, none, none⟩).2 1 (some "Alex")).2
      1 (trimStr "Alex") = 1 ∧
    addLike (addLike (postRecipes initDB
        ⟨1, "Tea", none, none, none, none, none, none, none, none⟩).2 1 (some "Alex")).2
      1 (some "Alex") =
      (.ok (), (addLike (postRecipes initDB
        ⟨1, "Tea", none, none, none, none, none, none, none, none⟩).2 1 (some "Alex")).2) := by
  have h := c9_add_like_idempotent (postRecipes initDB
      ⟨1, "Tea", none, none, none, none, none, none, none, none⟩).2 1 "Alex"
    (by decide) (by decide) (by decide) (by decide) (by decide)
  exact ⟨h.1, h.2.1, h.2.2.1⟩

/-- The returned recipe list contains the given recipe id. -/
def respIncludes (resp : Resp (List RecipeSummary)) (recipeId : Nat) : Bool :=
  match resp with
  | .ok l => l.any (fun s => s.recipe.id == recipeId)
  | _ => false

/-- C3: the search route's `whereClause` has no disjunct for ingredient
catalog names or ingredient line text.  A recipe whose only occurrence of
"carda" is in its ingredient rows (catalog name "Cardamom", line "3 pods
Cardamom") is created successfully, and searching its cookbook for "carda"
returns the empty list — although the repository's own test suite
(`tests/server/index.test.ts`, "search finds recipes by ingredient name or
line") and the spec require it to be returned. -/
theorem c3_search_misses_ingredient_match :
    (postRecipes initDB ⟨1, "Spiced Tea", none, none, none,
        some [.obj (some "3 pods Cardamom") none (some "pods") (some "Cardamom"),
              .str "pinch of salt"], none, none, none, none⟩).1 = .ok 1 ∧
    ((postRecipes initDB ⟨1, "Spiced Tea", none, none, none,
        some [.obj (some "3 pods Cardamom") none (some "pods") (some "Cardamom"),
              .str "pinch of salt"], none, none, none, none⟩).2.ingredients.any
      (fun i => occursIn "carda".data (lowerStr i.line).data &&
        occursIn "carda".data (lowerStr (jsOr i.name "")).data)) = true ∧
    searchRecipes (postRecipes initDB ⟨1, "Spiced Tea", none, none, none,
        some [.obj (some "3 pods Cardamom") none (some "pods") (some "Cardamom"),
              .str "pinch of salt"], none, none, none, none⟩).2 1 (some "carda") = .ok [] := by
  decide

/-- C7, counterexample: the escaping covers only `%` and `_`, not the LIKE
escape character `\` itself.  For the recipe titled "100%" the term `\`
matches (the pattern becomes `%\%%`, i.e. "contains a literal percent"),
although `\` does not occur in the title, the description, or any tag or
liker name — so a metacharacter of the operator reached the matcher
unescaped and changed the match semantics. -/
theorem c7_escape_counterexample :
    respIncludes (searchRecipes (postRecipes initDB
      ⟨1, "100%", none, none, none, none, none, none, none, none⟩).2 1 (some "\\")) 1 = true ∧
    occursIn "\\".data (lowerStr "100%").data = false ∧
    occursIn "\\".data (lowerStr "").data = false := by
  decide

lemma likeMatch_nil (s : List Char) : likeMatch [] s = s.isEmpty := rfl

lemma likeMatch_pct (p s : List Char) :
    likeMatch ('%' :: p) s = s.tails.any (fun t => likeMatch p t) := rfl

lemma likeMatch_esc (c : Char) (p s : List Char) :
    likeMatch ('\\' :: c :: p) s =
      (match s with | e :: s' => c == e && likeMatch p s' | [] => false) := by
  cases s <;> rfl

lemma likeMatch_lit (c : Char) (p s : List Char) (h1 : c ≠ '\\') (h2 : c ≠ '%')
    (h3 : c ≠ '_') :
    likeMatch (c :: p) s =
      (match s with | e :: s' => c == e && likeMatch p s' | [] => false) := by
  rw [likeMatch.eq_def]
  split <;> first | rfl | simp_all

lemma likeMatch_pct_nil (s : List Char) : likeMatch ['%'] s = true := by
  rw [likeMatch_pct]
  rw [List.any_eq_true]
  refine ⟨[], (List.mem_tails _ _).mpr List.nil_suffix, rfl⟩

lemma escape_prefix (t : List Char) (hbs : '\\' ∉ t) :
    ∀ s, likeMatch (escapeLike t ++ ['%']) s = t.isPrefixOf s := by
  induction t with
  | nil =>
    intro s
    simpa [escapeLike, List.isPrefixOf] using likeMatch_pct_nil s
  | cons c t' ih =>
    intro s
    have hc : c ≠ '\\' := fun h => hbs (h ▸ List.mem_cons_self c t')
    have hbs' : '\\' ∉ t' := fun h => hbs (List.mem_cons_of_mem _ h)
    by_cases hm : c = '%' ∨ c = '_'
    · have he : escapeLike (c :: t') = '\\' :: c :: escapeLike t' := by
        rw [escapeLike, if_pos hm]
      rw [he]
      cases s with
      | nil =>
        rw [List.cons_append, List.cons_append, likeMatch_esc]
        rfl
      | cons e s' =>
        rw [List.cons_append, List.cons_append, likeMatch_esc]
        show (c == e && likeMatch (escapeLike t' ++ ['%']) s') = _
        rw [ih hbs' s']
        rfl
    · have he : escapeLike (c :: t') = c :: escapeLike t' := by
        rw [escapeLike, if_neg hm]
      rw [he]
      push_neg at hm
      cases s with
      | nil =>
        rw [List.cons_append, likeMatch_lit c _ _ hc hm.1 hm.2]
        rfl
      | cons e s' =>
        rw [List.cons_append, likeMatch_lit c _ _ hc hm.1 hm.2]
        show (c == e && likeMatch (escapeLike t' ++ ['%']) s') = _
        rw [ih hbs' s']
        rfl

/-- C7, amended: for every term that does not contain the escape character
`\`, the escaping of `%` and `_` makes the built LIKE pattern match exactly
the strings containing the term literally; a term containing `\` can still
alter the match semantics (see the counterexample). -/
theorem c7_like_escaping_literal (t hay : List Char) (hbs : '\\' ∉ t) :
    likeMatch (likePattern t) hay = occursIn t hay := by
  unfold likePattern occursIn
  rw [likeMatch_pct]
  have hfun : (fun tl => likeMatch (escapeLike t ++ ['%']) tl) =
      (fun tl => t.isPrefixOf tl) := funext (fun tl => escape_prefix t hbs tl)
  rw [hfun]

/-- C7 witness: the escaped term "100%" — `%` included — matches exactly
the strings containing "100%" literally. -/
theorem c7_like_escaping_literal_witness :
    likeMatch (likePattern "100%".data) "a 100% match".data =
      occursIn "100%".data "a 100% match".data ∧
    likeMatch (likePattern "100%".data) "a 1000 match".data =
      occursIn "100%".data "a 1000 match".data :=
  ⟨c7_like_escaping_literal "100%".data "a 100% match".data (by decide),
   c7_like_escaping_literal "100%".data "a 1000 match".data (by decide)⟩

/-- C4: catalog resolution is case-insensitive with the first-inserted
spelling canonical.  In any catalog state, resolving a second name that
equals the first ignoring case returns the id the first resolution
returned and changes nothing; and concretely, linking "Sugar", "sugar" and
"SUGAR" yields one and the same catalog id (1) on all three lines while
`suggestions()` returns the spelling "Sugar" exactly once. -/
theorem c4_catalog_case_insensitive_resolve :
    (∀ st n1 n2, lowerStr n1 = lowerStr n2 →
      (resolve (resolve st n1).2 n2).1 = (resolve st n1).1 ∧
      (resolve (resolve st n1).2 n2).2 = (resolve st n1).2) ∧
    ((linkLine (linkLine (linkLine ⟨[], 1, []⟩ 1 "Sugar") 2 "sugar") 3 "SUGAR").links =
        [(1, 1), (2, 1), (3, 1)] ∧
      suggestions (linkLine (linkLine (linkLine ⟨[], 1, []⟩ 1 "Sugar") 2 "sugar") 3 "SUGAR") =
        ["Sugar"]) := by
  constructor
  · intro st n1 n2 h
    have hpred : (fun e : CatalogEntry => lowerStr e.name == lowerStr n2) =
        (fun e => lowerStr e.name == lowerStr n1) := funext (fun e => by rw [h])
    unfold resolve
    rw [hpred]
    cases hf : st.entries.find? (fun e => lowerStr e.name == lowerStr n1) with
    | some e =>
      dsimp only
      rw [hf]
      exact ⟨rfl, rfl⟩
    | none =>
      dsimp only
      rw [List.find?_append, hf]
      have hself : ((lowerStr (⟨st.nextId, n1⟩ : CatalogEntry).name) == lowerStr n1) = true :=
        beq_self_eq_true _
      simp [List.find?, hself, Option.none_or]
  · decide

/-- C4 witness: in a catalog already holding "Tea" under id 7, resolving
"Sugar" and then "SUGAR" yields the same id and the same state. -/
theorem c4_catalog_case_insensitive_resolve_witness :
    (resolve (resolve ⟨[⟨7, "Tea"⟩], 9, []⟩ "Sugar").2 "SUGAR").1 =
      (resolve ⟨[⟨7, "Tea"⟩], 9, []⟩ "Sugar").1 ∧
    (resolve (resolve ⟨[⟨7, "Tea"⟩], 9, []⟩ "Sugar").2 "SUGAR").2 =
      (resolve ⟨[⟨7, "Tea"⟩], 9, []⟩ "Sugar").2 :=
  c4_catalog_case_insensitive_resolve.1 ⟨[⟨7, "Tea"⟩], 9, []⟩ "Sugar" "SUGAR" (by decide)

/-- The observable payload of a stored ingredient row. -/
def ingredientData (i : IngredientRow) :
    String × Option Rat × Option String × Option String :=
  (i.line, i.quantity, i.unit, i.name)

/-- The row shape `insertIngredients` writes for one input element. -/
def normalizeIngredient : IngredientInput →
    String × Option Rat × Option String × Option String
  | .str s => (s, none, none, none)
  | .obj line q u n => (jsOr line (jsOr n ""), q, u, n)

lemma mkIngredientRow_position (i r p : Nat) (ing : IngredientInput) :
    (mkIngredientRow i r p ing).position = p := by cases ing <;> rfl

lemma mkIngredientRow_recipeId (i r p : Nat) (ing : IngredientInput) :
    (mkIngredientRow i r p ing).recipeId = r := by cases ing <;> rfl

lemma mkIngredientRow_data (i r p : Nat) (ing : IngredientInput) :
    ingredientData (mkIngredientRow i r p ing) = normalizeIngredient ing := by
  cases ing <;> rfl

lemma ingredientRows_map_position (rid : Nat) (l : List IngredientInput) :
    ∀ b p, (ingredientRows rid b p l).map (·.position) = List.range' p l.length := by
  induction l with
  | nil => intro b p; rfl
  | cons ing rest ih =>
    intro b p
    rw [ingredientRows, List.map_cons, mkIngredientRow_position, List.length_cons,
        List.range'_succ, ih]

lemma ingredientRows_map_data (rid : Nat) (l : List IngredientInput) :
    ∀ b p, (ingredientRows rid b p l).map ingredientData = l.map normalizeIngredient := by
  induction l with
  | nil => intro b p; rfl
  | cons ing rest ih =>
    intro b p
    rw [ingredientRows, List.map_cons, mkIngredientRow_data, List.map_cons, ih]

lemma ingredientRows_recipeId (rid : Nat) (l : List IngredientInput) :
    ∀ b p, ∀ r ∈ ingredientRows rid b p l, r.recipeId = rid := by
  induction l with
  | nil => intro b p r hr; cases hr
  | cons ing rest ih =>
    intro b p r hr
    rw [ingredientRows] at hr
    rcases List.mem_cons.mp hr with h | h
    · rw [h, mkIngredientRow_recipeId]
    · exact ih _ _ r h

lemma stepRows_map_position (rid : Nat) (l : List String) :
    ∀ b p, (stepRows rid b p l).map (·.position) = List.range' p l.length := by
  induction l with
  | nil => intro b p; rfl
  | cons x rest ih =>
    intro b p
    rw [stepRows, List.map_cons, List.length_cons, List.range'_succ, ih]

lemma stepRows_map_instruction (rid : Nat) (l : List String) :
    ∀ b p, (stepRows rid b p l).map (·.instruction) = l := by
  induction l with
  | nil => intro b p; rfl
  | cons x rest ih =>
    intro b p
    rw [stepRows, List.map_cons, ih]

lemma stepRows_recipeId (rid : Nat) (l : List String) :
    ∀ b p, ∀ r ∈ stepRows rid b p l, r.recipeId = rid := by
  induction l with
  | nil => intro b p r hr; cases hr
  | cons x rest ih =>
    intro b p r hr
    rw [stepRows] at hr
    rcases List.mem_cons.mp hr with h | h
    · rw [h]
    · exact ih _ _ r h

lemma filterIng_append_rows (old rows : List IngredientRow) (rid : Nat)
    (hold : ∀ i ∈ old, i.recipeId ≠ rid) (hrows : ∀ i ∈ rows, i.recipeId = rid) :
    (old ++ rows).filter (fun i => i.recipeId == rid) = rows := by
  rw [List.filter_append]
  rw [List.filter_eq_nil_iff.mpr (by intro a ha; simpa using hold a ha)]
  rw [List.filter_eq_self.mpr (by intro a ha; simpa using hrows a ha)]
  rfl

lemma filterStep_append_rows (old rows : List StepRow) (rid : Nat)
    (hold : ∀ i ∈ old, i.recipeId ≠ rid) (hrows : ∀ i ∈ rows, i.recipeId = rid) :
    (old ++ rows).filter (fun i => i.recipeId == rid) = rows := by
  rw [List.filter_append]
  rw [List.filter_eq_nil_iff.mpr (by intro a ha; simpa using hold a ha)]
  rw [List.filter_eq_self.mpr (by intro a ha; simpa using hrows a ha)]
  rfl

lemma insertIngredients_ingredients (rid : Nat) (l : List IngredientInput) (db : DB) :
    (insertIngredients rid l db).ingredients =
      db.ingredients ++ ingredientRows rid db.nextIngredientId 0 l := by
  cases l with
  | nil => simp [insertIngredients, ingredientRows]
  | cons a l' => rfl

lemma insertIngredients_steps (rid : Nat) (l : List IngredientInput) (db : DB) :
    (insertIngredients rid l db).steps = db.steps := by
  cases l <;> rfl

lemma insertSteps_steps (rid : Nat) (l : List String) (db : DB) :
    (insertSteps rid l db).steps = db.steps ++ stepRows rid db.nextStepId 0 l := by
  cases l with
  | nil => simp [insertSteps, stepRows]
  | cons a l' => rfl

lemma insertSteps_ingredients (rid : Nat) (l : List String) (db : DB) :
    (insertSteps rid l db).ingredients = db.ingredients := by
  cases l <;> rfl

lemma insertNoteIfPresent_ingredients (rid : Nat) (n : Option String) (db : DB) :
    (insertNoteIfPresent rid n db).ingredients = db.ingredients := by
  unfold insertNoteIfPresent
  split <;> first | rfl | (split <;> rfl)

lemma insertNoteIfPresent_steps (rid : Nat) (n : Option String) (db : DB) :
    (insertNoteIfPresent rid n db).steps = db.steps := by
  unfold insertNoteIfPresent
  split <;> first | rfl | (split <;> rfl)

lemma insertTagOne_ingredients (rid : Nat) (db : DB) (t : String) :
    (insertTagOne rid db t).ingredients = db.ingredients := by
  unfold insertTagOne
  dsimp only
  repeat' split
  all_goals rfl

lemma insertTagOne_steps (rid : Nat) (db : DB) (t : String) :
    (insertTagOne rid db t).steps = db.steps := by
  unfold insertTagOne
  dsimp only
  repeat' split
  all_goals rfl

lemma foldl_insertTagOne_ingredients (rid : Nat) (ts : List String) :
    ∀ db : DB, (ts.foldl (insertTagOne rid) db).ingredients = db.ingredients := by
  induction ts with
  | nil => intro db; rfl
  | cons t ts' ih =>
    intro db
    rw [List.foldl_cons, ih, insertTagOne_ingredients]

lemma foldl_insertTagOne_steps (rid : Nat) (ts : List String) :
    ∀ db : DB, (ts.foldl (insertTagOne rid) db).steps = db.steps := by
  induction ts with
  | nil => intro db; rfl
  | cons t ts' ih =>
    intro db
    rw [List.foldl_cons, ih, insertTagOne_steps]

lemma insertTags_ingredients (rid : Nat) (t : Option (List String)) (db : DB) :
    (insertTags rid t db).ingredients = db.ingredients := by
  unfold insertTags
  cases t with
  | none => rfl
  | some ts =>
    dsimp only
    by_cases h : ts.isEmpty = true
    · rw [if_pos h]
    · rw [if_neg h]
      exact foldl_insertTagOne_ingredients rid ts db

lemma insertTags_steps (rid : Nat) (t : Option (List String)) (db : DB) :
    (insertTags rid t db).steps = db.steps := by
  unfold insertTags
  cases t with
  | none => rfl
  | some ts =>
    dsimp only
    by_cases h : ts.isEmpty = true
    · rw [if_pos h]
    · rw [if_neg h]
      exact foldl_insertTagOne_steps rid ts db

lemma applyUpdate_ingredients (id : Nat) (p : RecipeUpdatePayload) (db : DB)
    (l : List IngredientInput) (hl : p.ingredients = some l) :
    (applyUpdate id p db).ingredients =
      db.ingredients.filter (fun i => i.recipeId ≠ id) ++
        ingredientRows id db.nextIngredientId 0 l := by
  unfold applyUpdate
  rw [hl]
  dsimp only
  cases p.steps with
  | none =>
    cases p.notes with
    | none =>
      rw [insertIngredients_ingredients]
      rfl
    | some n =>
      dsimp only
      split
      · rw [insertIngredients_ingredients]
        rfl
      · show (insertIngredients id l _).ingredients = _
        rw [insertIngredients_ingredients]
        rfl
  | some st =>
    cases p.notes with
    | none =>
      dsimp only
      rw [insertSteps_ingredients]
      rw [insertIngredients_ingredients]
      rfl
    | some n =>
      dsimp only
      split
      · rw [insertSteps_ingredients]
        rw [insertIngredients_ingredients]
        rfl
      · show (insertSteps id st _).ingredients = _
        rw [insertSteps_ingredients]
        rw [insertIngredients_ingredients]
        rfl

lemma insertIngredients_nextStepId (rid : Nat) (l : List IngredientInput) (db : DB) :
    (insertIngredients rid l db).nextStepId = db.nextStepId := by
  cases l <;> rfl

lemma applyUpdate_steps (id : Nat) (p : RecipeUpdatePayload) (db : DB)
    (l : List String) (hl : p.steps = some l) :
    (applyUpdate id p db).steps =
      db.steps.filter (fun s => s.recipeId ≠ id) ++ stepRows id db.nextStepId 0 l := by
  unfold applyUpdate
  rw [hl]
  dsimp only
  cases p.ingredients with
  | none =>
    cases p.notes with
    | none =>
      rw [insertSteps_steps]
      rfl
    | some n =>
      dsimp only
      split
      · rw [insertSteps_steps]
        rfl
      · show (insertSteps id l _).steps = _
        rw [insertSteps_steps]
        rfl
  | some li =>
    cases p.notes with
    | none =>
      rw [insertSteps_steps, insertIngredients_steps, insertIngredients_nextStepId]
      rfl
    | some n =>
      dsimp only
      split
      · rw [insertSteps_steps, insertIngredients_steps, insertIngredients_nextStepId]
        rfl
      · show (insertSteps id l _).steps = _
        rw [insertSteps_steps, insertIngredients_steps, insertIngredients_nextStepId]
        rfl

lemma createTx_ok (p : RecipeCreatePayload) (db : DB) (a : Nat) (dbx : DB)
    (h : createTx p db = .ok (a, dbx)) :
    a = db.nextRecipeId ∧
    dbx.ingredients = db.ingredients ++
      ingredientRows db.nextRecipeId db.nextIngredientId 0 (p.ingredients.getD []) ∧
    dbx.steps = db.steps ++ stepRows db.nextRecipeId db.nextStepId 0 (p.steps.getD []) := by
  unfold createTx insertRecipeRow at h
  by_cases hfk : db.cookbooks.any (fun c => c.id == p.cookbookId) = true
  · rw [if_pos hfk] at h
    simp only [Bind.bind, Except.bind] at h
    simp only [Except.ok.injEq, Prod.mk.injEq] at h
    obtain ⟨ha, hdbx⟩ := h
    refine ⟨ha.symm, ?_, ?_⟩
    · rw [← hdbx]
      rw [insertTags_ingredients, insertNoteIfPresent_ingredients, insertSteps_ingredients,
          insertIngredients_ingredients]
    · rw [← hdbx]
      rw [insertTags_steps, insertNoteIfPresent_steps, insertSteps_steps,
          insertIngredients_steps, insertIngredients_nextStepId]
  · rw [if_neg hfk] at h
    simp only [Bind.bind, Except.bind] at h
    cases h

/-- C1: for every `createRecipe` and every `updateRecipe` call supplying an
ingredients list (and independently a steps list), the rows stored for that
recipe afterwards are exactly the supplied sequence: positions are
`0..n-1` with no gaps or duplicates (`List.range n`), the row at position
`i` carries the data of the `i`-th supplied element, and — the filters
being over the whole table — no old row for that recipe survives the
delete-and-replace. -/
theorem c1_ordered_lists_replaced (db : DB)
    (hfreshI : ∀ i ∈ db.ingredients, i.recipeId ≠ db.nextRecipeId)
    (hfreshS : ∀ s ∈ db.steps, s.recipeId ≠ db.nextRecipeId)
    (cbody : RecipeCreateBody) (cp : RecipeCreatePayload)
    (hcp : validateCreate cbody = .ok cp)
    (rid : Nat) (db1 : DB) (hpost : postRecipes db cbody = (.ok rid, db1))
    (idRaw : Int) (ubody : RecipeUpdateBody) (up : RecipeUpdatePayload)
    (hup : validateUpdate ubody = .ok up)
    (db2 : DB) (hpatch : patchRecipes db idRaw ubody = (.ok (), db2)) :
    ((db1.ingredients.filter (fun i => i.recipeId == rid)).map (·.position) =
        List.range (cp.ingredients.getD []).length ∧
      (db1.ingredients.filter (fun i => i.recipeId == rid)).map ingredientData =
        (cp.ingredients.getD []).map normalizeIngredient ∧
      (db1.steps.filter (fun s => s.recipeId == rid)).map (·.position) =
        List.range (cp.steps.getD []).length ∧
      (db1.steps.filter (fun s => s.recipeId == rid)).map (·.instruction) =
        cp.steps.getD []) ∧
    (∀ l, up.ingredients = some l →
      (db2.ingredients.filter (fun i => i.recipeId == idRaw.toNat)).map (·.position) =
          List.range l.length ∧
      (db2.ingredients.filter (fun i => i.recipeId == idRaw.toNat)).map ingredientData =
          l.map normalizeIngredient) ∧
    (∀ l, up.steps = some l →
      (db2.steps.filter (fun s => s.recipeId == idRaw.toNat)).map (·.position) =
          List.range l.length ∧
      (db2.steps.filter (fun s => s.recipeId == idRaw.toNat)).map (·.instruction) = l) := by
  have hstruct : rid = db.nextRecipeId ∧
      db1.ingredients = db.ingredients ++
        ingredientRows db.nextRecipeId db.nextIngredientId 0 (cp.ingredients.getD []) ∧
      db1.steps = db.steps ++
        stepRows db.nextRecipeId db.nextStepId 0 (cp.steps.getD []) := by
    unfold postRecipes at hpost
    rw [hcp] at hpost
    unfold txResp runTransaction at hpost
    dsimp only at hpost
    cases hc : createTx cp db with
    | error e => rw [hc] at hpost; simp at hpost
    | ok v =>
      obtain ⟨a, dbx⟩ := v
      rw [hc] at hpost
      simp only [Prod.mk.injEq, Resp.ok.injEq] at hpost
      obtain ⟨ha, hdb⟩ := hpost
      obtain ⟨ha2, hi, hs⟩ := createTx_ok cp db a dbx hc
      subst ha
      subst hdb
      exact ⟨ha2, hi, hs⟩
  have hupd : 0 < idRaw ∧ db2 = applyUpdate idRaw.toNat up db := by
    unfold patchRecipes at hpatch
    by_cases hpos : 0 < idRaw
    · rw [if_pos hpos] at hpatch
      by_cases hex : db.recipes.any (fun r => r.id == idRaw.toNat) = true
      · simp only [hex, if_true] at hpatch
        rw [hup] at hpatch
        unfold txResp runTransaction at hpatch
        simp only [Prod.mk.injEq, Resp.ok.injEq] at hpatch
        exact ⟨hpos, hpatch.2.symm⟩
      · rw [Bool.not_eq_true] at hex
        simp [hex] at hpatch
    · rw [if_neg hpos] at hpatch
      simp at hpatch
  obtain ⟨hrid, hingr, hsteps⟩ := hstruct
  obtain ⟨hpos, hdb2⟩ := hupd
  subst hrid
  subst hdb2
  refine ⟨⟨?_, ?_, ?_, ?_⟩, ?_, ?_⟩
  · rw [hingr, filterIng_append_rows _ _ _ hfreshI (ingredientRows_recipeId _ _ _ _),
        ingredientRows_map_position, List.range_eq_range']
  · rw [hingr, filterIng_append_rows _ _ _ hfreshI (ingredientRows_recipeId _ _ _ _),
        ingredientRows_map_data]
  · rw [hsteps, filterStep_append_rows _ _ _ hfreshS (stepRows_recipeId _ _ _ _),
        stepRows_map_position, List.range_eq_range']
  · rw [hsteps, filterStep_append_rows _ _ _ hfreshS (stepRows_recipeId _ _ _ _),
        stepRows_map_instruction]
  · intro l hl
    rw [applyUpdate_ingredients idRaw.toNat up db l hl]
    have hold : ∀ i ∈ db.ingredients.filter (fun i => i.recipeId ≠ idRaw.toNat),
        i.recipeId ≠ idRaw.toNat := by
      intro i hi
      have := List.of_mem_filter hi
      simpa using this
    rw [filterIng_append_rows _ _ _ hold (ingredientRows_recipeId _ _ _ _)]
    constructor
    · rw [ingredientRows_map_position, List.range_eq_range']
    · rw [ingredientRows_map_data]
  · intro l hl
    rw [applyUpdate_steps idRaw.toNat up db l hl]
    have hold : ∀ s ∈ db.steps.filter (fun s => s.recipeId ≠ idRaw.toNat),
        s.recipeId ≠ idRaw.toNat := by
      intro s hs
      have := List.of_mem_filter hs
      simpa using this
    rw [filterStep_append_rows _ _ _ hold (stepRows_recipeId _ _ _ _)]
    constructor
    · rw [stepRows_map_position, List.range_eq_range']
    · rw [stepRows_map_instruction]

def c1DemoDB : DB :=
  (postRecipes initDB ⟨1, "Stew", none, none, none, none, none, none, none, none⟩).2

def c1CreateBody : RecipeCreateBody :=
  ⟨1, "Soup", none, none, none,
   some [.str "water", .obj (some "salt") none none (some "Salt")],
   some ["Boil", "Serve"], none, none, none⟩

def c1CreatePayload : RecipeCreatePayload :=
  ⟨1, "Soup", none, none, none,
   some [.str "water", .obj (some "salt") none none (some "Salt")],
   some ["Boil", "Serve"], none, none, none⟩

def c1UpdateBody : RecipeUpdateBody :=
  ⟨none, none, none, none, some [.str "pepper"], some ["Stir"], none, none, none⟩

def c1UpdatePayload : RecipeUpdatePayload :=
  ⟨none, none, none, none, some [.str "pepper"], some ["Stir"], none, none, none⟩

/-- C1 witness: creating "Soup" with two ingredients and two steps next to
an existing recipe, then replacing recipe 1's lists via PATCH. -/
theorem c1_ordered_lists_replaced_witness :
    (((postRecipes c1DemoDB c1CreateBody).2.ingredients.filter
          (fun i => i.recipeId == 2)).map (·.position) =
        List.range (c1CreatePayload.ingredients.getD []).length ∧
      ((postRecipes c1DemoDB c1CreateBody).2.ingredients.filter
          (fun i => i.recipeId == 2)).map ingredientData =
        (c1CreatePayload.ingredients.getD []).map normalizeIngredient ∧
      ((postRecipes c1DemoDB c1CreateBody).2.steps.filter
          (fun s => s.recipeId == 2)).map (·.position) =
        List.range (c1CreatePayload.steps.getD []).length ∧
      ((postRecipes c1DemoDB c1CreateBody).2.steps.filter
          (fun s => s.recipeId == 2)).map (·.instruction) =
        c1CreatePayload.steps.getD []) ∧
    (∀ l, c1UpdatePayload.ingredients = some l →
      (((patchRecipes c1DemoDB 1 c1UpdateBody).2.ingredients.filter
          (fun i => i.recipeId == (1 : Int).toNat)).map (·.position) =
          List.range l.length ∧
        ((patchRecipes c1DemoDB 1 c1UpdateBody).2.ingredients.filter
          (fun i => i.recipeId == (1 : Int).toNat)).map ingredientData =
          l.map normalizeIngredient)) ∧
    (∀ l, c1UpdatePayload.steps = some l →
      (((patchRecipes c1DemoDB 1 c1UpdateBody).2.steps.filter
          (fun s => s.recipeId == (1 : Int).toNat)).map (·.position) =
          List.range l.length ∧
        ((patchRecipes c1DemoDB 1 c1UpdateBody).2.steps.filter
          (fun s => s.recipeId == (1 : Int).toNat)).map (·.instruction) = l)) :=
  c1_ordered_lists_replaced c1DemoDB (by decide) (by decide) c1CreateBody c1CreatePayload (by rfl)
    2 (postRecipes c1DemoDB c1CreateBody).2 (by decide)
    1 c1UpdateBody c1UpdatePayload (by rfl)
    (patchRecipes c1DemoDB 1 c1UpdateBody).2 (by decide)


end Cookbook
namespace Cookbook

lemma refsRecipe_append (db : DB) (rid : Nat) (r : RecipeRow) (rest : List RecipeRow)
    (h : RefsRecipe db rid) :
    ∃ x ∈ db.recipes ++ [r] ++ rest, x.id = rid := by
  obtain ⟨x, hx, he⟩ := h
  exact ⟨x, List.mem_append_left _ (List.mem_append_left _ hx), he⟩

lemma refs_map (l : List RecipeRow) (g : RecipeRow → RecipeRow)
    (hg : ∀ r, (g r).id = r.id) (n : Nat) (h : ∃ r ∈ l, r.id = n) :
    ∃ r ∈ l.map g, r.id = n := by
  obtain ⟨r, hr, he⟩ := h
  exact ⟨g r, List.mem_map_of_mem g hr, by rw [hg r, he]⟩

lemma noOrphans_updateRecipeRows (id : Nat) (f : RecipeRow → RecipeRow)
    (hid : ∀ r, (f r).id = r.id) (hcb : ∀ r, (f r).cookbookId = r.cookbookId)
    (db : DB) (h : NoOrphans db) : NoOrphans (updateRecipeRows id f db) := by
  have hg : ∀ r : RecipeRow, (if r.id == id then f r else r).id = r.id := by
    intro r
    split
    · exact hid r
    · rfl
  refine ⟨?_, ?_, ?_, ?_, ?_, h.tagLinksRefTag, ?_⟩
  · intro r hr
    obtain ⟨r0, hr0, he0⟩ := List.mem_map.mp hr
    obtain ⟨c, hcm, hce⟩ := h.recipesRef r0 hr0
    refine ⟨c, hcm, ?_⟩
    rw [hce, ← he0]
    split
    · rw [hcb r0]
    · rfl
  · intro i hi
    exact refs_map _ _ hg _ (h.ingredientsRef i hi)
  · intro s hs
    exact refs_map _ _ hg _ (h.stepsRef s hs)
  · intro n hn
    exact refs_map _ _ hg _ (h.notesRef n hn)
  · intro l hl
    exact refs_map _ _ hg _ (h.tagLinksRefRecipe l hl)
  · intro l hl
    exact refs_map _ _ hg _ (h.likesRef l hl)

lemma noOrphans_postCookbooks (db : DB) (name : Option String) (h : NoOrphans db) :
    NoOrphans (postCookbooks db name).2 := by
  unfold postCookbooks
  cases name with
  | none => exact h
  | some s =>
    dsimp only
    split
    · exact h
    · refine ⟨?_, h.ingredientsRef, h.stepsRef, h.notesRef, h.tagLinksRefRecipe,
        h.tagLinksRefTag, h.likesRef⟩
      intro r hr
      obtain ⟨c, hcm, hce⟩ := h.recipesRef r hr
      exact ⟨c, List.mem_append_left _ hcm, hce⟩

lemma noOrphans_patchCookbooks (db : DB) (idRaw : Int) (name : Option String)
    (h : NoOrphans db) : NoOrphans (patchCookbooks db idRaw name).2 := by
  unfold patchCookbooks
  split
  · cases name with
    | none => exact h
    | some s =>
      dsimp only
      split
      · exact h
      · split
        · refine ⟨?_, h.ingredientsRef, h.stepsRef, h.notesRef, h.tagLinksRefRecipe,
            h.tagLinksRefTag, h.likesRef⟩
          intro r hr
          obtain ⟨c, hcm, hce⟩ := h.recipesRef r hr
          refine ⟨if c.id == idRaw.toNat then { c with name := trimStr s } else c,
            List.mem_map_of_mem _ hcm, ?_⟩
          split
          · rw [hce]
          · rw [hce]
        · exact h
  · exact h

lemma noOrphans_incrementUses (db : DB) (idRaw : Int) (h : NoOrphans db) :
    NoOrphans (incrementUses db idRaw).2 := by
  unfold incrementUses
  split
  · dsimp only
    split
    · exact noOrphans_updateRecipeRows idRaw.toNat
        (fun r => { r with uses := r.uses + 1 }) (fun r => rfl) (fun r => rfl) db h
    · exact h
  · exact h

lemma noOrphans_decrementUses (db : DB) (idRaw : Int) (h : NoOrphans db) :
    NoOrphans (decrementUses db idRaw).2 := by
  unfold decrementUses
  split
  · dsimp only
    split
    · exact h
    · next existing hfind =>
      dsimp only
      split
      · split
        · exact noOrphans_updateRecipeRows idRaw.toNat
            (fun r => { r with uses := existing.uses - 1 }) (fun r => rfl) (fun r => rfl) db h
        · exact h
      · split
        · exact noOrphans_updateRecipeRows idRaw.toNat
            (fun r => { r with uses := 0 }) (fun r => rfl) (fun r => rfl) db h
        · exact h
  · exact h

lemma noOrphans_removeTag (db : DB) (idRaw : Int) (name : String) (h : NoOrphans db) :
    NoOrphans (removeTag db idRaw name).2 := by
  unfold removeTag
  split
  · dsimp only
    split
    · exact h
    · split
      · split
        · refine ⟨h.recipesRef, h.ingredientsRef, h.stepsRef, h.notesRef, ?_, ?_, h.likesRef⟩
          · intro l hl
            exact h.tagLinksRefRecipe l (List.mem_of_mem_filter hl)
          · intro l hl
            exact h.tagLinksRefTag l (List.mem_of_mem_filter hl)
        · exact h
      · exact h
  · exact h

lemma noOrphans_removeLike (db : DB) (idRaw : Int) (name : String) (h : NoOrphans db) :
    NoOrphans (removeLike db idRaw name).2 := by
  unfold removeLike
  split
  · dsimp only
    split
    · exact h
    · split
      · refine ⟨h.recipesRef, h.ingredientsRef, h.stepsRef, h.notesRef,
          h.tagLinksRefRecipe, h.tagLinksRefTag, ?_⟩
        intro l hl
        exact h.likesRef l (List.mem_of_mem_filter hl)
      · exact h
  · exact h

lemma noOrphans_addLike (db : DB) (idRaw : Int) (name : Option String) (h : NoOrphans db) :
    NoOrphans (addLike db idRaw name).2 := by
  unfold addLike
  split
  · dsimp only
    split
    next hex =>
      cases name with
      | none => exact h
      | some s =>
        dsimp only
        split
        · exact h
        · split
          · exact h
          · refine ⟨h.recipesRef, h.ingredientsRef, h.stepsRef, h.notesRef,
              h.tagLinksRefRecipe, h.tagLinksRefTag, ?_⟩
            intro l hl
            rcases List.mem_append.mp hl with hl | hl
            · exact h.likesRef l hl
            · rw [List.mem_singleton] at hl
              subst hl
              obtain ⟨r, hr, hre⟩ := List.any_eq_true.mp hex
              exact ⟨r, hr, by simpa using hre⟩
    next hex => exact h
  · exact h

end Cookbook
namespace Cookbook

lemma noOrphans_addTag (db : DB) (idRaw : Int) (name : Option String) (h : NoOrphans db) :
    NoOrphans (addTag db idRaw name).2 := by
  unfold addTag
  split
  · dsimp only
    split
    next hex =>
      cases name with
      | none => exact h
      | some s =>
        dsimp only
        split
        · exact h
        · have href : RefsRecipe db idRaw.toNat := by
            obtain ⟨r, hr, hre⟩ := List.any_eq_true.mp hex
            exact ⟨r, hr, by simpa using hre⟩
          by_cases htag : db.tags.any (fun tg => tg.name == trimStr s) = true
          · simp only [htag, if_true]
            cases hf : db.tags.find? (fun tg => tg.name == trimStr s) with
            | none => exact h
            | some tg =>
              dsimp only
              split
              · exact h
              · refine ⟨h.recipesRef, h.ingredientsRef, h.stepsRef, h.notesRef, ?_, ?_, h.likesRef⟩
                · intro l hl
                  rcases List.mem_append.mp hl with hl | hl
                  · exact h.tagLinksRefRecipe l hl
                  · rw [List.mem_singleton] at hl
                    subst hl
                    exact href
                · intro l hl
                  rcases List.mem_append.mp hl with hl | hl
                  · exact h.tagLinksRefTag l hl
                  · rw [List.mem_singleton] at hl
                    subst hl
                    exact ⟨tg, List.mem_of_find?_eq_some hf, rfl⟩
          · rw [Bool.not_eq_true] at htag
            simp only [htag, Bool.false_eq_true, if_false]
            have hT : NoOrphans ({ db with tags := db.tags ++ [⟨db.nextTagId, trimStr s⟩], nextTagId := db.nextTagId + 1 } : DB) := by
              refine ⟨h.recipesRef, h.ingredientsRef, h.stepsRef, h.notesRef,
                h.tagLinksRefRecipe, ?_, h.likesRef⟩
              intro l hl
              obtain ⟨tg, htg, he⟩ := h.tagLinksRefTag l hl
              exact ⟨tg, List.mem_append_left _ htg, he⟩
            cases hf : (db.tags ++ [(⟨db.nextTagId, trimStr s⟩ : TagRow)]).find?
                (fun tg => tg.name == trimStr s) with
            | none => exact hT
            | some tg =>
              dsimp only
              split
              · exact hT
              · refine ⟨hT.recipesRef, hT.ingredientsRef, hT.stepsRef, hT.notesRef, ?_, ?_, hT.likesRef⟩
                · intro l hl
                  rcases List.mem_append.mp hl with hl | hl
                  · exact hT.tagLinksRefRecipe l hl
                  · rw [List.mem_singleton] at hl
                    subst hl
                    exact href
                · intro l hl
                  rcases List.mem_append.mp hl with hl | hl
                  · exact hT.tagLinksRefTag l hl
                  · rw [List.mem_singleton] at hl
                    subst hl
                    exact ⟨tg, List.mem_of_find?_eq_some hf, rfl⟩
    next => exact h
  · exact h

lemma noOrphans_deleteRecipe (db : DB) (idRaw : Int) (h : NoOrphans db) :
    NoOrphans (deleteRecipe db idRaw).2 := by
  unfold deleteRecipe
  split
  · dsimp only
    split
    · refine ⟨?_, ?_, ?_, ?_, ?_, ?_, ?_⟩
      · intro r hr
        exact h.recipesRef r (List.mem_of_mem_filter hr)
      · intro i hi
        have hig := List.of_mem_filter hi
        obtain ⟨r, hr, hre⟩ := h.ingredientsRef i (List.mem_of_mem_filter hi)
        refine ⟨r, List.mem_filter.mpr ⟨hr, ?_⟩, hre⟩
        simp only [decide_eq_true_eq] at hig ⊢
        rw [hre]
        exact hig
      · intro x hx
        have hig := List.of_mem_filter hx
        obtain ⟨r, hr, hre⟩ := h.stepsRef x (List.mem_of_mem_filter hx)
        refine ⟨r, List.mem_filter.mpr ⟨hr, ?_⟩, hre⟩
        simp only [decide_eq_true_eq] at hig ⊢
        rw [hre]
        exact hig
      · intro x hx
        have hig := List.of_mem_filter hx
        obtain ⟨r, hr, hre⟩ := h.notesRef x (List.mem_of_mem_filter hx)
        refine ⟨r, List.mem_filter.mpr ⟨hr, ?_⟩, hre⟩
        simp only [decide_eq_true_eq] at hig ⊢
        rw [hre]
        exact hig
      · intro x hx
        have hig := List.of_mem_filter hx
        obtain ⟨r, hr, hre⟩ := h.tagLinksRefRecipe x (List.mem_of_mem_filter hx)
        refine ⟨r, List.mem_filter.mpr ⟨hr, ?_⟩, hre⟩
        simp only [decide_eq_true_eq] at hig ⊢
        rw [hre]
        exact hig
      · intro x hx
        exact h.tagLinksRefTag x (List.mem_of_mem_filter hx)
      · intro x hx
        have hig := List.of_mem_filter hx
        obtain ⟨r, hr, hre⟩ := h.likesRef x (List.mem_of_mem_filter hx)
        refine ⟨r, List.mem_filter.mpr ⟨hr, ?_⟩, hre⟩
        simp only [decide_eq_true_eq] at hig ⊢
        rw [hre]
        exact hig
    · exact h
  · exact h

lemma dead_contains (db : DB) (id : Nat) (r : RecipeRow) (hr : r ∈ db.recipes)
    (hcb : r.cookbookId = id) (n : Nat) (he : r.id = n) :
    (((db.recipes.filter (fun r => r.cookbookId = id)).map (·.id)).contains n) = true := by
  have hmem : r ∈ db.recipes.filter (fun r => r.cookbookId = id) :=
    List.mem_filter.mpr ⟨hr, by simpa using hcb⟩
  have : n ∈ (db.recipes.filter (fun r => r.cookbookId = id)).map (·.id) := by
    rw [← he]
    exact List.mem_map_of_mem _ hmem
  exact List.elem_eq_true_of_mem this

lemma noOrphans_deleteCookbook (db : DB) (idRaw : Int) (h : NoOrphans db) :
    NoOrphans (deleteCookbook db idRaw).2 := by
  unfold deleteCookbook
  split
  · dsimp only
    split
    · refine ⟨?_, ?_, ?_, ?_, ?_, ?_, ?_⟩
      · intro r hr
        have hkeep := List.of_mem_filter hr
        simp only [decide_eq_true_eq] at hkeep
        obtain ⟨c, hc, hce⟩ := h.recipesRef r (List.mem_of_mem_filter hr)
        refine ⟨c, List.mem_filter.mpr ⟨hc, ?_⟩, hce⟩
        simp only [decide_eq_true_eq]
        rw [hce]
        exact hkeep
      · intro x hx
        have hkept := List.of_mem_filter hx
        simp only [Bool.not_eq_true', decide_eq_true_eq] at hkept
        obtain ⟨r, hr, hre⟩ := h.ingredientsRef x (List.mem_of_mem_filter hx)
        have hrcb : r.cookbookId ≠ idRaw.toNat := by
          intro hcb
          exact hkept (dead_contains db idRaw.toNat r hr hcb x.recipeId hre)
        refine ⟨r, List.mem_filter.mpr ⟨hr, by simpa using hrcb⟩, hre⟩
      · intro x hx
        have hkept := List.of_mem_filter hx
        simp only [Bool.not_eq_true', decide_eq_true_eq] at hkept
        obtain ⟨r, hr, hre⟩ := h.stepsRef x (List.mem_of_mem_filter hx)
        have hrcb : r.cookbookId ≠ idRaw.toNat := by
          intro hcb
          exact hkept (dead_contains db idRaw.toNat r hr hcb x.recipeId hre)
        refine ⟨r, List.mem_filter.mpr ⟨hr, by simpa using hrcb⟩, hre⟩
      · intro x hx
        have hkept := List.of_mem_filter hx
        simp only [Bool.not_eq_true', decide_eq_true_eq] at hkept
        obtain ⟨r, hr, hre⟩ := h.notesRef x (List.mem_of_mem_filter hx)
        have hrcb : r.cookbookId ≠ idRaw.toNat := by
          intro hcb
          exact hkept (dead_contains db idRaw.toNat r hr hcb x.recipeId hre)
        refine ⟨r, List.mem_filter.mpr ⟨hr, by simpa using hrcb⟩, hre⟩
      · intro x hx
        have hkept := List.of_mem_filter hx
        simp only [Bool.not_eq_true', decide_eq_true_eq] at hkept
        obtain ⟨r, hr, hre⟩ := h.tagLinksRefRecipe x (List.mem_of_mem_filter hx)
        have hrcb : r.cookbookId ≠ idRaw.toNat := by
          intro hcb
          exact hkept (dead_contains db idRaw.toNat r hr hcb x.recipeId hre)
        refine ⟨r, List.mem_filter.mpr ⟨hr, by simpa using hrcb⟩, hre⟩
      · intro x hx
        exact h.tagLinksRefTag x (List.mem_of_mem_filter hx)
      · intro x hx
        have hkept := List.of_mem_filter hx
        simp only [Bool.not_eq_true', decide_eq_true_eq] at hkept
        obtain ⟨r, hr, hre⟩ := h.likesRef x (List.mem_of_mem_filter hx)
        have hrcb : r.cookbookId ≠ idRaw.toNat := by
          intro hcb
          exact hkept (dead_contains db idRaw.toNat r hr hcb x.recipeId hre)
        refine ⟨r, List.mem_filter.mpr ⟨hr, by simpa using hrcb⟩, hre⟩
    · exact h
  · exact h

lemma insertIngredients_recipes (rid : Nat) (l : List IngredientInput) (db : DB) :
    (insertIngredients rid l db).recipes = db.recipes := by
  unfold insertIngredients
  split <;> rfl

lemma insertSteps_recipes (rid : Nat) (l : List String) (db : DB) :
    (insertSteps rid l db).recipes = db.recipes := by
  unfold insertSteps
  split <;> rfl

lemma insertNoteIfPresent_recipes (rid : Nat) (n : Option String) (db : DB) :
    (insertNoteIfPresent rid n db).recipes = db.recipes := by
  unfold insertNoteIfPresent
  cases n with
  | none => rfl
  | some v =>
    dsimp only
    split <;> rfl

lemma insertTagOne_recipes (rid : Nat) (db : DB) (t : String) :
    (insertTagOne rid db t).recipes = db.recipes := by
  unfold insertTagOne
  dsimp only
  repeat' split
  all_goals rfl

lemma refsRecipe_cast (db db' : DB) (hrec : db'.recipes = db.recipes) (rid : Nat)
    (h : RefsRecipe db rid) : RefsRecipe db' rid := by
  unfold RefsRecipe at h ⊢
  rw [hrec]
  exact h

lemma refsRecipe_updateRecipeRows (id : Nat) (f : RecipeRow → RecipeRow)
    (hid : ∀ r, (f r).id = r.id) (db : DB) (rid : Nat) (h : RefsRecipe db rid) :
    RefsRecipe (updateRecipeRows id f db) rid := by
  have hg : ∀ r : RecipeRow, (if r.id == id then f r else r).id = r.id := by
    intro r
    split
    · exact hid r
    · rfl
  exact refs_map _ _ hg _ h

lemma noOrphans_insertIngredients (rid : Nat) (l : List IngredientInput) (db : DB)
    (h : NoOrphans db) (href : RefsRecipe db rid) :
    NoOrphans (insertIngredients rid l db) := by
  unfold insertIngredients
  split
  · exact h
  · refine ⟨h.recipesRef, ?_, h.stepsRef, h.notesRef, h.tagLinksRefRecipe,
      h.tagLinksRefTag, h.likesRef⟩
    intro i hi
    rcases List.mem_append.mp hi with hi | hi
    · exact h.ingredientsRef i hi
    · rw [ingredientRows_recipeId rid l db.nextIngredientId 0 i hi]
      exact href

lemma noOrphans_insertSteps (rid : Nat) (l : List String) (db : DB)
    (h : NoOrphans db) (href : RefsRecipe db rid) :
    NoOrphans (insertSteps rid l db) := by
  unfold insertSteps
  split
  · exact h
  · refine ⟨h.recipesRef, h.ingredientsRef, ?_, h.notesRef, h.tagLinksRefRecipe,
      h.tagLinksRefTag, h.likesRef⟩
    intro x hx
    rcases List.mem_append.mp hx with hx | hx
    · exact h.stepsRef x hx
    · rw [stepRows_recipeId rid l db.nextStepId 0 x hx]
      exact href

lemma noOrphans_insertNoteIfPresent (rid : Nat) (n : Option String) (db : DB)
    (h : NoOrphans db) (href : RefsRecipe db rid) :
    NoOrphans (insertNoteIfPresent rid n db) := by
  unfold insertNoteIfPresent
  cases n with
  | none => exact h
  | some v =>
    dsimp only
    split
    · exact h
    · refine ⟨h.recipesRef, h.ingredientsRef, h.stepsRef, ?_, h.tagLinksRefRecipe,
        h.tagLinksRefTag, h.likesRef⟩
      intro x hx
      rcases List.mem_append.mp hx with hx | hx
      · exact h.notesRef x hx
      · rw [List.mem_singleton] at hx
        subst hx
        exact href

lemma noOrphans_insertTagOne (rid : Nat) (db : DB) (tag : String)
    (h : NoOrphans db) (href : RefsRecipe db rid) :
    NoOrphans (insertTagOne rid db tag) := by
  unfold insertTagOne
  dsimp only
  split
  · exact h
  · by_cases htag : db.tags.any (fun t => t.name == trimStr tag) = true
    · simp only [htag, if_true]
      cases hf : db.tags.find? (fun t => t.name == trimStr tag) with
      | none => exact h
      | some t =>
        dsimp only
        split
        · exact h
        · refine ⟨h.recipesRef, h.ingredientsRef, h.stepsRef, h.notesRef, ?_, ?_, h.likesRef⟩
          · intro l hl
            rcases List.mem_append.mp hl with hl | hl
            · exact h.tagLinksRefRecipe l hl
            · rw [List.mem_singleton] at hl
              subst hl
              exact href
          · intro l hl
            rcases List.mem_append.mp hl with hl | hl
            · exact h.tagLinksRefTag l hl
            · rw [List.mem_singleton] at hl
              subst hl
              exact ⟨t, List.mem_of_find?_eq_some hf, rfl⟩
    · rw [Bool.not_eq_true] at htag
      simp only [htag, Bool.false_eq_true, if_false]
      have hT : NoOrphans ({ db with tags := db.tags ++ [⟨db.nextTagId, trimStr tag⟩], nextTagId := db.nextTagId + 1 } : DB) := by
        refine ⟨h.recipesRef, h.ingredientsRef, h.stepsRef, h.notesRef,
          h.tagLinksRefRecipe, ?_, h.likesRef⟩
        intro l hl
        obtain ⟨t, ht, he⟩ := h.tagLinksRefTag l hl
        exact ⟨t, List.mem_append_left _ ht, he⟩
      cases hf : (db.tags ++ [(⟨db.nextTagId, trimStr tag⟩ : TagRow)]).find?
          (fun t => t.name == trimStr tag) with
      | none => exact hT
      | some t =>
        dsimp only
        split
        · exact hT
        · refine ⟨hT.recipesRef, hT.ingredientsRef, hT.stepsRef, hT.notesRef, ?_, ?_,
            hT.likesRef⟩
          · intro l hl
            rcases List.mem_append.mp hl with hl | hl
            · exact hT.tagLinksRefRecipe l hl
            · rw [List.mem_singleton] at hl
              subst hl
              exact href
          · intro l hl
            rcases List.mem_append.mp hl with hl | hl
            · exact hT.tagLinksRefTag l hl
            · rw [List.mem_singleton] at hl
              subst hl
              exact ⟨t, List.mem_of_find?_eq_some hf, rfl⟩

lemma noOrphans_foldl_insertTagOne (rid : Nat) (ts : List String) :
    ∀ db : DB, NoOrphans db → RefsRecipe db rid →
      NoOrphans (ts.foldl (insertTagOne rid) db) := by
  induction ts with
  | nil =>
    intro db h href
    exact h
  | cons t rest ih =>
    intro db h href
    rw [List.foldl_cons]
    exact ih _ (noOrphans_insertTagOne rid db t h href)
      (refsRecipe_cast db (insertTagOne rid db t) (insertTagOne_recipes rid db t) rid href)

lemma noOrphans_insertTags (rid : Nat) (tags : Option (List String)) (db : DB)
    (h : NoOrphans db) (href : RefsRecipe db rid) :
    NoOrphans (insertTags rid tags db) := by
  unfold insertTags
  cases tags with
  | none => exact h
  | some ts =>
    dsimp only
    split
    · exact h
    · exact noOrphans_foldl_insertTagOne rid ts db h href

lemma noOrphans_insertRecipeRow (db : DB) (cb : Nat) (t d au : String)
    (ph : Option String) (sv : Int) (a : Nat) (db1 : DB) (h0 : NoOrphans db)
    (h : insertRecipeRow db cb t d au ph sv = .ok (a, db1)) :
    NoOrphans db1 ∧ RefsRecipe db1 a := by
  unfold insertRecipeRow at h
  by_cases hfk : db.cookbooks.any (fun c => c.id == cb) = true
  · rw [if_pos hfk] at h
    simp only [Except.ok.injEq, Prod.mk.injEq] at h
    obtain ⟨ha, hdb1⟩ := h
    subst hdb1
    subst ha
    constructor
    · refine ⟨?_, ?_, ?_, ?_, ?_, h0.tagLinksRefTag, ?_⟩
      · intro r hr
        rcases List.mem_append.mp hr with hr | hr
        · exact h0.recipesRef r hr
        · rw [List.mem_singleton] at hr
          subst hr
          obtain ⟨c, hc, hce⟩ := List.any_eq_true.mp hfk
          exact ⟨c, hc, by simpa using hce⟩
      · intro i hi
        obtain ⟨r, hr, hre⟩ := h0.ingredientsRef i hi
        exact ⟨r, List.mem_append_left _ hr, hre⟩
      · intro x hx
        obtain ⟨r, hr, hre⟩ := h0.stepsRef x hx
        exact ⟨r, List.mem_append_left _ hr, hre⟩
      · intro x hx
        obtain ⟨r, hr, hre⟩ := h0.notesRef x hx
        exact ⟨r, List.mem_append_left _ hr, hre⟩
      · intro l hl
        obtain ⟨r, hr, hre⟩ := h0.tagLinksRefRecipe l hl
        exact ⟨r, List.mem_append_left _ hr, hre⟩
      · intro l hl
        obtain ⟨r, hr, hre⟩ := h0.likesRef l hl
        exact ⟨r, List.mem_append_left _ hr, hre⟩
    · exact ⟨_, List.mem_append_right _ (List.mem_singleton.mpr rfl), rfl⟩
  · rw [if_neg hfk] at h
    cases h

lemma noOrphans_refs_insertIngredients (rid : Nat) (l : List IngredientInput) (d : DB)
    (h : NoOrphans d) (href : RefsRecipe d rid) :
    NoOrphans (insertIngredients rid l d) ∧ RefsRecipe (insertIngredients rid l d) rid :=
  ⟨noOrphans_insertIngredients rid l d h href,
   refsRecipe_cast d (insertIngredients rid l d) (insertIngredients_recipes rid l d) rid href⟩

lemma noOrphans_refs_insertSteps (rid : Nat) (l : List String) (d : DB)
    (h : NoOrphans d) (href : RefsRecipe d rid) :
    NoOrphans (insertSteps rid l d) ∧ RefsRecipe (insertSteps rid l d) rid :=
  ⟨noOrphans_insertSteps rid l d h href,
   refsRecipe_cast d (insertSteps rid l d) (insertSteps_recipes rid l d) rid href⟩

lemma noOrphans_refs_insertNote (rid : Nat) (n : Option String) (d : DB)
    (h : NoOrphans d) (href : RefsRecipe d rid) :
    NoOrphans (insertNoteIfPresent rid n d) ∧ RefsRecipe (insertNoteIfPresent rid n d) rid :=
  ⟨noOrphans_insertNoteIfPresent rid n d h href,
   refsRecipe_cast d (insertNoteIfPresent rid n d) (insertNoteIfPresent_recipes rid n d) rid href⟩

lemma noOrphans_refs_filterIngredients (d : DB) (q : IngredientRow → Bool) (rid : Nat)
    (h : NoOrphans d) (href : RefsRecipe d rid) :
    NoOrphans ({ d with ingredients := d.ingredients.filter q } : DB) ∧
      RefsRecipe ({ d with ingredients := d.ingredients.filter q } : DB) rid := by
  refine ⟨⟨h.recipesRef, ?_, h.stepsRef, h.notesRef, h.tagLinksRefRecipe,
    h.tagLinksRefTag, h.likesRef⟩, href⟩
  intro i hi
  exact h.ingredientsRef i (List.mem_of_mem_filter hi)

lemma noOrphans_refs_filterSteps (d : DB) (q : StepRow → Bool) (rid : Nat)
    (h : NoOrphans d) (href : RefsRecipe d rid) :
    NoOrphans ({ d with steps := d.steps.filter q } : DB) ∧
      RefsRecipe ({ d with steps := d.steps.filter q } : DB) rid := by
  refine ⟨⟨h.recipesRef, h.ingredientsRef, ?_, h.notesRef, h.tagLinksRefRecipe,
    h.tagLinksRefTag, h.likesRef⟩, href⟩
  intro x hx
  exact h.stepsRef x (List.mem_of_mem_filter hx)

lemma noOrphans_refs_filterNotes (d : DB) (q : NoteRow → Bool) (rid : Nat)
    (h : NoOrphans d) (href : RefsRecipe d rid) :
    NoOrphans ({ d with notes := d.notes.filter q } : DB) ∧
      RefsRecipe ({ d with notes := d.notes.filter q } : DB) rid := by
  refine ⟨⟨h.recipesRef, h.ingredientsRef, h.stepsRef, ?_, h.tagLinksRefRecipe,
    h.tagLinksRefTag, h.likesRef⟩, href⟩
  intro x hx
  exact h.notesRef x (List.mem_of_mem_filter hx)

lemma noOrphans_createTx (p : RecipeCreatePayload) (db : DB) (a : Nat) (dbx : DB)
    (h0 : NoOrphans db) (h : createTx p db = .ok (a, dbx)) : NoOrphans dbx := by
  unfold createTx at h
  cases hins : insertRecipeRow db p.cookbookId p.title (p.description.getD "")
      (p.author.getD "") p.photoDataUrl.join (p.servings.getD 1) with
  | error e =>
    rw [hins] at h
    simp only [Bind.bind, Except.bind] at h
    cases h
  | ok v =>
    obtain ⟨a1, db1⟩ := v
    rw [hins] at h
    simp only [Bind.bind, Except.bind] at h
    simp only [Except.ok.injEq, Prod.mk.injEq] at h
    obtain ⟨ha, hdbx⟩ := h
    obtain ⟨h1, href1⟩ := noOrphans_insertRecipeRow db p.cookbookId p.title
      (p.description.getD "") (p.author.getD "") p.photoDataUrl.join (p.servings.getD 1)
      a1 db1 h0 hins
    obtain ⟨h2, r2⟩ := noOrphans_refs_insertIngredients a1 (p.ingredients.getD []) db1 h1 href1
    obtain ⟨h3, r3⟩ := noOrphans_refs_insertSteps a1 (p.steps.getD []) _ h2 r2
    obtain ⟨h4, r4⟩ := noOrphans_refs_insertNote a1 p.notes _ h3 r3
    rw [← hdbx]
    exact noOrphans_insertTags a1 p.tags _ h4 r4

lemma noOrphans_postRecipes (db : DB) (body : RecipeCreateBody) (h : NoOrphans db) :
    NoOrphans (postRecipes db body).2 := by
  unfold postRecipes
  cases hv : validateCreate body with
  | error msg => exact h
  | ok p =>
    dsimp only
    unfold txResp runTransaction
    cases hc : createTx p db with
    | error e => exact h
    | ok v =>
      obtain ⟨a, dbx⟩ := v
      dsimp only
      exact noOrphans_createTx p db a dbx h hc


lemma noOrphans_applyUpdate (id : Nat) (p : RecipeUpdatePayload) (db : DB)
    (h : NoOrphans db) (href : RefsRecipe db id) :
    NoOrphans (applyUpdate id p db) := by
  have h1 : NoOrphans (updateRecipeRows id (fun r =>
      { r with
        title := p.title.getD r.title
        description := p.description.getD r.description
        author := p.author.getD r.author
        photo := match p.photoDataUrl with
          | some v => v
          | none => r.photo
        servings := p.servings.getD r.servings }) db) :=
    noOrphans_updateRecipeRows id (fun r =>
      { r with
        title := p.title.getD r.title
        description := p.description.getD r.description
        author := p.author.getD r.author
        photo := match p.photoDataUrl with
          | some v => v
          | none => r.photo
        servings := p.servings.getD r.servings }) (fun r => rfl) (fun r => rfl) db h
  have r1 : RefsRecipe (updateRecipeRows id (fun r =>
      { r with
        title := p.title.getD r.title
        description := p.description.getD r.description
        author := p.author.getD r.author
        photo := match p.photoDataUrl with
          | some v => v
          | none => r.photo
        servings := p.servings.getD r.servings }) db) id :=
    refsRecipe_updateRecipeRows id (fun r =>
      { r with
        title := p.title.getD r.title
        description := p.description.getD r.description
        author := p.author.getD r.author
        photo := match p.photoDataUrl with
          | some v => v
          | none => r.photo
        servings := p.servings.getD r.servings }) (fun r => rfl) db id href
  unfold applyUpdate
  dsimp only
  cases p.ingredients with
  | none =>
    cases p.steps with
    | none =>
      cases p.notes with
      | none => exact h1
      | some n =>
        obtain ⟨h4, r4⟩ := noOrphans_refs_filterNotes _
          (fun nr => decide (nr.recipeId ≠ id)) id h1 r1
        dsimp only
        split
        · exact h4
        · refine ⟨h4.recipesRef, h4.ingredientsRef, h4.stepsRef, ?_, h4.tagLinksRefRecipe,
            h4.tagLinksRefTag, h4.likesRef⟩
          intro x hx
          rcases List.mem_append.mp hx with hx | hx
          · exact h4.notesRef x hx
          · rw [List.mem_singleton] at hx
            subst hx
            exact r4
    | some ls =>
      obtain ⟨hf, rf⟩ := noOrphans_refs_filterSteps _
        (fun st => decide (st.recipeId ≠ id)) id h1 r1
      obtain ⟨h3, r3⟩ := noOrphans_refs_insertSteps id ls _ hf rf
      cases p.notes with
      | none => exact h3
      | some n =>
        obtain ⟨h4, r4⟩ := noOrphans_refs_filterNotes _
          (fun nr => decide (nr.recipeId ≠ id)) id h3 r3
        dsimp only
        split
        · exact h4
        · refine ⟨h4.recipesRef, h4.ingredientsRef, h4.stepsRef, ?_, h4.tagLinksRefRecipe,
            h4.tagLinksRefTag, h4.likesRef⟩
          intro x hx
          rcases List.mem_append.mp hx with hx | hx
          · exact h4.notesRef x hx
          · rw [List.mem_singleton] at hx
            subst hx
            exact r4
  | some li =>
    obtain ⟨hfi, rfi⟩ := noOrphans_refs_filterIngredients _
      (fun i => decide (i.recipeId ≠ id)) id h1 r1
    obtain ⟨h2, r2⟩ := noOrphans_refs_insertIngredients id li _ hfi rfi
    cases p.steps with
    | none =>
      cases p.notes with
      | none => exact h2
      | some n =>
        obtain ⟨h4, r4⟩ := noOrphans_refs_filterNotes _
          (fun nr => decide (nr.recipeId ≠ id)) id h2 r2
        dsimp only
        split
        · exact h4
        · refine ⟨h4.recipesRef, h4.ingredientsRef, h4.stepsRef, ?_, h4.tagLinksRefRecipe,
            h4.tagLinksRefTag, h4.likesRef⟩
          intro x hx
          rcases List.mem_append.mp hx with hx | hx
          · exact h4.notesRef x hx
          · rw [List.mem_singleton] at hx
            subst hx
            exact r4
    | some ls =>
      obtain ⟨hf, rf⟩ := noOrphans_refs_filterSteps _
        (fun st => decide (st.recipeId ≠ id)) id h2 r2
      obtain ⟨h3, r3⟩ := noOrphans_refs_insertSteps id ls _ hf rf
      cases p.notes with
      | none => exact h3
      | some n =>
        obtain ⟨h4, r4⟩ := noOrphans_refs_filterNotes _
          (fun nr => decide (nr.recipeId ≠ id)) id h3 r3
        dsimp only
        split
        · exact h4
        · refine ⟨h4.recipesRef, h4.ingredientsRef, h4.stepsRef, ?_, h4.tagLinksRefRecipe,
            h4.tagLinksRefTag, h4.likesRef⟩
          intro x hx
          rcases List.mem_append.mp hx with hx | hx
          · exact h4.notesRef x hx
          · rw [List.mem_singleton] at hx
            subst hx
            exact r4

lemma noOrphans_patchRecipes (db : DB) (idRaw : Int) (body : RecipeUpdateBody)
    (h : NoOrphans db) : NoOrphans (patchRecipes db idRaw body).2 := by
  unfold patchRecipes
  split
  · dsimp only
    split
    next hex =>
      cases hv : validateUpdate body with
      | error msg => exact h
      | ok p =>
        dsimp only
        unfold txResp runTransaction
        dsimp only
        obtain ⟨r, hr, hre⟩ := List.any_eq_true.mp hex
        exact noOrphans_applyUpdate idRaw.toNat p db h ⟨r, hr, by simpa using hre⟩
    next hex => exact h
  · exact h

lemma deleteRecipe_ok (db : DB) (idRaw : Int)
    (hok : (deleteRecipe db idRaw).1 = .ok ()) :
    (∀ r ∈ (deleteRecipe db idRaw).2.recipes, r.id ≠ idRaw.toNat) ∧
    (∀ x ∈ (deleteRecipe db idRaw).2.ingredients, x.recipeId ≠ idRaw.toNat) ∧
    (∀ x ∈ (deleteRecipe db idRaw).2.steps, x.recipeId ≠ idRaw.toNat) ∧
    (∀ x ∈ (deleteRecipe db idRaw).2.notes, x.recipeId ≠ idRaw.toNat) ∧
    (∀ x ∈ (deleteRecipe db idRaw).2.recipeTags, x.recipeId ≠ idRaw.toNat) ∧
    (∀ x ∈ (deleteRecipe db idRaw).2.likes, x.recipeId ≠ idRaw.toNat) := by
  unfold deleteRecipe at hok ⊢
  by_cases h0 : (0:Int) < idRaw
  · rw [if_pos h0] at hok ⊢
    dsimp only at hok ⊢
    by_cases hex : db.recipes.any (fun r => r.id == idRaw.toNat) = true
    · rw [if_pos hex]
      refine ⟨?_, ?_, ?_, ?_, ?_, ?_⟩
      all_goals
        intro x hx
        have hp := List.of_mem_filter hx
        simp only [decide_eq_true_eq] at hp
        exact hp
    · rw [if_neg hex] at hok
      exact (Resp.noConfusion hok)
  · rw [if_neg h0] at hok
    exact (Resp.noConfusion hok)

lemma deleteCookbook_ok (db : DB) (idRaw : Int)
    (hok : (deleteCookbook db idRaw).1 = .ok ()) :
    (∀ c ∈ (deleteCookbook db idRaw).2.cookbooks, c.id ≠ idRaw.toNat) ∧
    (∀ r ∈ (deleteCookbook db idRaw).2.recipes, r.cookbookId ≠ idRaw.toNat) ∧
    (∀ x ∈ (deleteCookbook db idRaw).2.ingredients, ∀ r ∈ db.recipes,
      r.cookbookId = idRaw.toNat → x.recipeId ≠ r.id) ∧
    (∀ x ∈ (deleteCookbook db idRaw).2.steps, ∀ r ∈ db.recipes,
      r.cookbookId = idRaw.toNat → x.recipeId ≠ r.id) ∧
    (∀ x ∈ (deleteCookbook db idRaw).2.notes, ∀ r ∈ db.recipes,
      r.cookbookId = idRaw.toNat → x.recipeId ≠ r.id) ∧
    (∀ x ∈ (deleteCookbook db idRaw).2.recipeTags, ∀ r ∈ db.recipes,
      r.cookbookId = idRaw.toNat → x.recipeId ≠ r.id) ∧
    (∀ x ∈ (deleteCookbook db idRaw).2.likes, ∀ r ∈ db.recipes,
      r.cookbookId = idRaw.toNat → x.recipeId ≠ r.id) := by
  unfold deleteCookbook at hok ⊢
  by_cases h0 : (0:Int) < idRaw
  · rw [if_pos h0] at hok ⊢
    dsimp only at hok ⊢
    by_cases hex : db.cookbooks.any (fun c => c.id == idRaw.toNat) = true
    · rw [if_pos hex]
      refine ⟨?_, ?_, ?_, ?_, ?_, ?_, ?_⟩
      · intro c hc
        have hp := List.of_mem_filter hc
        simp only [decide_eq_true_eq] at hp
        exact hp
      · intro r hr
        have hp := List.of_mem_filter hr
        simp only [decide_eq_true_eq] at hp
        exact hp
      all_goals
        intro x hx r hr hcb he
        have hkept := List.of_mem_filter hx
        simp only [Bool.not_eq_true', decide_eq_true_eq] at hkept
        exact hkept (dead_contains db idRaw.toNat r hr hcb x.recipeId he.symm)
    · rw [if_neg hex] at hok
      exact (Resp.noConfusion hok)
  · rw [if_neg h0] at hok
    exact (Resp.noConfusion hok)

lemma noOrphans_init : NoOrphans initDB := by
  constructor <;> intro x hx <;> cases hx

lemma step_preserves (a b : DB) (hs : ApiStep a b) (h : NoOrphans a) : NoOrphans b := by
  cases hs with
  | createCookbook name => exact noOrphans_postCookbooks a name h
  | renameCookbook id name => exact noOrphans_patchCookbooks a id name h
  | removeCookbook id => exact noOrphans_deleteCookbook a id h
  | createRecipe body => exact noOrphans_postRecipes a body h
  | updateRecipe id body => exact noOrphans_patchRecipes a id body h
  | removeRecipe id => exact noOrphans_deleteRecipe a id h
  | bumpUses id => exact noOrphans_incrementUses a id h
  | dropUses id => exact noOrphans_decrementUses a id h
  | tagAdd id name => exact noOrphans_addTag a id name h
  | tagRemove id name => exact noOrphans_removeTag a id name h
  | likeAdd id name => exact noOrphans_addLike a id name h
  | likeRemove id name => exact noOrphans_removeLike a id name h

lemma reachable_noOrphans (db : DB) (h : Reachable db) : NoOrphans db := by
  unfold Reachable at h
  induction h with
  | refl => exact noOrphans_init
  | tail hab hbc ih => exact step_preserves _ _ hbc ih


/-- C6: in every reachable store state there are no orphaned child rows —
every ingredient, step, note, tag-link and like row references an existing
recipe, every tag link an existing tag, and every recipe an existing
cookbook. Moreover a successful recipe delete removes the recipe together
with all of its ingredient, step, note, tag-link and like rows, a
successful cookbook delete removes the cookbook, all of its recipes and
all child rows of those recipes, and both deletes leave the no-orphan
invariant intact. -/
theorem c6_no_orphaned_child_rows (db : DB) (h : Reachable db) (idRaw : Int) :
    NoOrphans db ∧
    NoOrphans (deleteRecipe db idRaw).2 ∧
    NoOrphans (deleteCookbook db idRaw).2 ∧
    ((deleteRecipe db idRaw).1 = .ok () →
      (∀ r ∈ (deleteRecipe db idRaw).2.recipes, r.id ≠ idRaw.toNat) ∧
      (∀ x ∈ (deleteRecipe db idRaw).2.ingredients, x.recipeId ≠ idRaw.toNat) ∧
      (∀ x ∈ (deleteRecipe db idRaw).2.steps, x.recipeId ≠ idRaw.toNat) ∧
      (∀ x ∈ (deleteRecipe db idRaw).2.notes, x.recipeId ≠ idRaw.toNat) ∧
      (∀ x ∈ (deleteRecipe db idRaw).2.recipeTags, x.recipeId ≠ idRaw.toNat) ∧
      (∀ x ∈ (deleteRecipe db idRaw).2.likes, x.recipeId ≠ idRaw.toNat)) ∧
    ((deleteCookbook db idRaw).1 = .ok () →
      (∀ c ∈ (deleteCookbook db idRaw).2.cookbooks, c.id ≠ idRaw.toNat) ∧
      (∀ r ∈ (deleteCookbook db idRaw).2.recipes, r.cookbookId ≠ idRaw.toNat) ∧
      (∀ x ∈ (deleteCookbook db idRaw).2.ingredients, ∀ r ∈ db.recipes,
        r.cookbookId = idRaw.toNat → x.recipeId ≠ r.id) ∧
      (∀ x ∈ (deleteCookbook db idRaw).2.steps, ∀ r ∈ db.recipes,
        r.cookbookId = idRaw.toNat → x.recipeId ≠ r.id) ∧
      (∀ x ∈ (deleteCookbook db idRaw).2.notes, ∀ r ∈ db.recipes,
        r.cookbookId = idRaw.toNat → x.recipeId ≠ r.id) ∧
      (∀ x ∈ (deleteCookbook db idRaw).2.recipeTags, ∀ r ∈ db.recipes,
        r.cookbookId = idRaw.toNat → x.recipeId ≠ r.id) ∧
      (∀ x ∈ (deleteCookbook db idRaw).2.likes, ∀ r ∈ db.recipes,
        r.cookbookId = idRaw.toNat → x.recipeId ≠ r.id)) := by
  have hno := reachable_noOrphans db h
  exact ⟨hno, noOrphans_deleteRecipe db idRaw hno, noOrphans_deleteCookbook db idRaw hno,
    fun hok => deleteRecipe_ok db idRaw hok,
    fun hok => deleteCookbook_ok db idRaw hok⟩

/-- Witness for C6 at the bootstrapped store and id 1: the seeded state is
reachable by the empty request sequence, and deleting cookbook 1 there
succeeds and leaves no orphan rows. -/
theorem c6_no_orphaned_child_rows_witness :
    NoOrphans initDB ∧
    NoOrphans (deleteRecipe initDB 1).2 ∧
    NoOrphans (deleteCookbook initDB 1).2 ∧
    ((deleteRecipe initDB 1).1 = .ok () →
      (∀ r ∈ (deleteRecipe initDB 1).2.recipes, r.id ≠ (1:Int).toNat) ∧
      (∀ x ∈ (deleteRecipe initDB 1).2.ingredients, x.recipeId ≠ (1:Int).toNat) ∧
      (∀ x ∈ (deleteRecipe initDB 1).2.steps, x.recipeId ≠ (1:Int).toNat) ∧
      (∀ x ∈ (deleteRecipe initDB 1).2.notes, x.recipeId ≠ (1:Int).toNat) ∧
      (∀ x ∈ (deleteRecipe initDB 1).2.recipeTags, x.recipeId ≠ (1:Int).toNat) ∧
      (∀ x ∈ (deleteRecipe initDB 1).2.likes, x.recipeId ≠ (1:Int).toNat)) ∧
    ((deleteCookbook initDB 1).1 = .ok () →
      (∀ c ∈ (deleteCookbook initDB 1).2.cookbooks, c.id ≠ (1:Int).toNat) ∧
      (∀ r ∈ (deleteCookbook initDB 1).2.recipes, r.cookbookId ≠ (1:Int).toNat) ∧
      (∀ x ∈ (deleteCookbook initDB 1).2.ingredients, ∀ r ∈ initDB.recipes,
        r.cookbookId = (1:Int).toNat → x.recipeId ≠ r.id) ∧
      (∀ x ∈ (deleteCookbook initDB 1).2.steps, ∀ r ∈ initDB.recipes,
        r.cookbookId = (1:Int).toNat → x.recipeId ≠ r.id) ∧
      (∀ x ∈ (deleteCookbook initDB 1).2.notes, ∀ r ∈ initDB.recipes,
        r.cookbookId = (1:Int).toNat → x.recipeId ≠ r.id) ∧
      (∀ x ∈ (deleteCookbook initDB 1).2.recipeTags, ∀ r ∈ initDB.recipes,
        r.cookbookId = (1:Int).toNat → x.recipeId ≠ r.id) ∧
      (∀ x ∈ (deleteCookbook initDB 1).2.likes, ∀ r ∈ initDB.recipes,
        r.cookbookId = (1:Int).toNat → x.recipeId ≠ r.id)) :=
  c6_no_orphaned_child_rows initDB Relation.ReflTransGen.refl 1

end Cookbook
